import Mathlib

set_option maxRecDepth 4000

namespace NanoLog

/-! Shallow embedding of the core of the nanolog-rs repository:
the SPSC variable-size block queue (src/spsc_var_queue_opt.rs), the TSC
clock parameter commit (src/tscns.rs), the deferred argument capture
(src/args2.rs), the scratch buffer (src/my_bytes_mut.rs) and the batched
console sink (src/console_sink.rs, src/format.rs, src/log.rs). -/

/-- Bytes per ring block (`BLOCK_SIZE` in spsc_var_queue_opt.rs). -/
def BLOCK_SIZE : Nat := 64

/-- Byte size of `MsgHeader` (size: u32, level: u32, tsc: u64, func: u64, repr C). -/
def MSG_HEADER_SIZE : Nat := 24

/-- Wrap modulus of u32 arithmetic. -/
def U32M : Nat := 4294967296

/-- Wrap modulus of u64 / usize arithmetic. -/
def U64M : Nat := 18446744073709551616

/-- Reinterpretation of a u32 bit pattern as an i32 (`x as i32`). -/
def toI32 (x : Nat) : Int :=
  if x % U32M < 2147483648 then ((x % U32M : Nat) : Int)
  else ((x % U32M : Nat) : Int) - (U32M : Int)

/-- Source `div_ceil(a, b) = (a + b - 1) / b` on usize, with wrapping addition
(release-mode semantics of the Rust `+`). -/
def divCeilU (a b : Nat) : Nat := ((a + b - 1) % U64M) / b

/-- State of `SpscVarQueueOpt<BLK_CNT>`: the `size` header field of each physical
block, the three u32 cursors and the producer-private cache of `read_idx`. -/
structure QState where
  blocks : List Nat
  writingIdx : Nat
  writtenIdx : Nat
  readIdx : Nat
  readIdxCache : Nat
deriving Repr, DecidableEq

/-- Result of a successful `Producer::try_alloc`: physical block index of the
header, payload capacity, total bytes (as u32) and the block count. -/
structure AllocRes where
  startPhys : Nat
  payloadCap : Nat
  totalBytes : Nat
  blkSz : Nat
deriving Repr, DecidableEq

/-- Fresh queue as built by `SpscVarQueueOpt::new` (all block sizes zero). -/
def QState.new (blkCnt : Nat) : QState :=
  { blocks := List.replicate blkCnt 0
    writingIdx := 0
    writtenIdx := 0
    readIdx := 0
    readIdxCache := 0 }

/-- Embedding of `Producer::try_alloc` (src/spsc_var_queue_opt.rs:93-143).
Returns the queue state after the call together with the allocation result.
All u32 stores wrap modulo `U32M`; the capacity check compares the cached
(or refreshed) `read_idx` against `min_read_idx` as signed 32-bit values. -/
def tryAlloc (blkCnt : Nat) (s : QState) (payloadLen : Nat) : QState × Option AllocRes :=
  if payloadLen + MSG_HEADER_SIZE ≥ U64M then (s, none) else
  let totalBytes := payloadLen + MSG_HEADER_SIZE
  let blkSz := divCeilU totalBytes BLOCK_SIZE % U32M
  let writeIdx := s.writingIdx
  let mask := blkCnt - 1
  let pad := blkCnt - (writeIdx &&& mask)
  let needed := (blkSz + if pad < blkSz then pad else 0) % U32M
  let minReadIdx := ((writeIdx + needed) % U32M + (U32M - blkCnt % U32M)) % U32M
  let proceed : QState → QState × Option AllocRes := fun s1 =>
    if pad < blkSz then
      let cur := writeIdx &&& mask
      let w2 := (writeIdx + pad) % U32M
      let s2 : QState := { s1 with blocks := s1.blocks.set cur 0, writingIdx := w2 }
      let s3 : QState := { s2 with writingIdx := (w2 + blkSz) % U32M }
      (s3, some ⟨w2 &&& mask, blkSz * BLOCK_SIZE - MSG_HEADER_SIZE, totalBytes % U32M, blkSz⟩)
    else
      let s3 : QState := { s1 with writingIdx := (writeIdx + blkSz) % U32M }
      (s3, some ⟨writeIdx &&& mask, blkSz * BLOCK_SIZE - MSG_HEADER_SIZE, totalBytes % U32M, blkSz⟩)
  if toI32 s.readIdxCache < toI32 minReadIdx then
    let fresh := s.readIdx
    if toI32 fresh < toI32 minReadIdx then
      ({ s with readIdxCache := fresh }, none)
    else
      proceed { s with readIdxCache := fresh }
  else
    proceed s

/-- Embedding of `Consumer::front` (src/spsc_var_queue_opt.rs:160-184) with
explicit fuel for the rewind-skipping loop. Returns the final `read_idx`
together with the peeked message (physical block index, size), if any. -/
def front (blkCnt : Nat) : Nat → List Nat → Nat → Nat → Nat × Option (Nat × Nat)
  | 0, _, r, _ => (r, none)
  | fuel + 1, blocks, r, w =>
    if r = w then (r, none) else
    let cur := r &&& (blkCnt - 1)
    let sz := blocks.getD cur 0
    if sz = 0 then
      let pad := blkCnt - cur
      front blkCnt fuel blocks ((r + pad) % U32M) w
    else (r, some (cur, sz))

/-- Exact block count of the claims: ceil((payload_len + HDR_SIZE)/BLOCK_SIZE). -/
def blkCount (payloadLen : Nat) : Nat := (payloadLen + MSG_HEADER_SIZE + 63) / 64

/-- Blocks remaining from a writing index to the physical end of the ring. -/
def padToEnd (blkCnt w : Nat) : Nat := blkCnt - w % blkCnt

/-- Rewind pad of the claims: the pad-to-end count when the message would
straddle the ring end, 0 otherwise. -/
def rewindPad (blkCnt w len : Nat) : Nat :=
  if padToEnd blkCnt w < blkCount len then padToEnd blkCnt w else 0

/-! TSC clock parameter commit (src/tscns.rs). The claims about `save_param`
and `tsc2ns` concern the order of the stores, so `save_param` is embedded as
the list of its volatile stores in source order. `ns_per_tsc` is an f64 whose
numeric value the protocol never inspects; it is carried as an opaque
integer-coded value. -/

/-- Published fields read by `tsc2ns` under the seqlock. -/
inductive TscField where
  | baseTsc
  | baseNs
  | nsPerTsc
deriving Repr, DecidableEq

/-- One volatile store performed by `save_param` (src/tscns.rs:177-198). -/
inductive TscEvent where
  | writeField (f : TscField) (v : Int)
  | writeNextCalibrate (v : Int)
  | seqWrite (v : Nat)
deriving Repr, DecidableEq

/-- Store sequence of `save_param(base_tsc, base_ns, sys_ns, new_ns_per_tsc)`
in source order: BASE_NS ← base_ns − sys_ns (line 179), NEXT_CALIBRATE_TSC
(line 182, value abstracted as `nextCal` since it is f64-derived), PARAM_SEQ ←
seq+1 (line 189), BASE_TSC, BASE_NS, NS_PER_TSC (lines 192-194), PARAM_SEQ ←
seq+2 (line 196). `seq0` is the value read from PARAM_SEQ at line 188. -/
def saveParamEvents (seq0 : Nat) (baseTsc baseNs sysNs nsPerTsc nextCal : Int) :
    List TscEvent :=
  [ .writeField .baseNs (baseNs - sysNs),
    .writeNextCalibrate nextCal,
    .seqWrite (seq0 + 1),
    .writeField .baseTsc baseTsc,
    .writeField .baseNs baseNs,
    .writeField .nsPerTsc nsPerTsc,
    .seqWrite (seq0 + 2) ]

def isPublishedWrite : TscEvent → Bool
  | .writeField _ _ => true
  | _ => false

def isOddSeqWrite : TscEvent → Bool
  | .seqWrite v => v % 2 == 1
  | _ => false

/-- The claimed seqlock discipline over a store sequence: every store to a
published field is preceded by a store of an odd value to PARAM_SEQ. -/
def seqOddFirst (evs : List TscEvent) : Bool :=
  (List.range evs.length).all fun i =>
    !(isPublishedWrite (evs.getD i (.seqWrite 0))) ||
      (List.range i).any fun j => isOddSeqWrite (evs.getD j (.seqWrite 0))

/-- Shared state written by `save_param` and read by `tsc2ns`. -/
structure TscState where
  paramSeq : Nat
  baseTsc : Int
  baseNs : Int
  nsPerTsc : Int
  nextCalibrateTsc : Int
deriving Repr, DecidableEq

def applyTscEvent (st : TscState) : TscEvent → TscState
  | .writeField .baseTsc v => { st with baseTsc := v }
  | .writeField .baseNs v => { st with baseNs := v }
  | .writeField .nsPerTsc v => { st with nsPerTsc := v }
  | .writeNextCalibrate v => { st with nextCalibrateTsc := v }
  | .seqWrite v => { st with paramSeq := v }

/-! Deferred argument capture (src/args2.rs). Byte images are lists of byte
values; all integers are unbounded naturals with explicit truncation where
the source truncates. -/

/-- Little-endian byte image of a 64-bit value. -/
def le64 (v : Nat) : List Nat :=
  [v % 256, v / 256 % 256, v / 65536 % 256, v / 16777216 % 256,
   v / 4294967296 % 256, v / 1099511627776 % 256,
   v / 281474976710656 % 256, v / 72057594037927936 % 256]

/-- Little-endian read of 8 bytes from the front of a byte list, as done by
`repr_off_as::<u64>` after dropping `offset` bytes. -/
def leRead8 : List Nat → Nat
  | b0 :: b1 :: b2 :: b3 :: b4 :: b5 :: b6 :: b7 :: _ =>
      b0 + 256 * b1 + 65536 * b2 + 16777216 * b3 + 4294967296 * b4
        + 1099511627776 * b5 + 281474976710656 * b6 + 72057594037927936 * b7
  | _ => 0

/-- Two's-complement 64-bit pattern of an i64 value. -/
def encodeI64 (v : Int) : Nat := (v % 18446744073709551616).toNat

/-- Reading back an i64 from its 64-bit pattern. -/
def decodeI64 (n : Nat) : Int :=
  if n < 9223372036854775808 then (n : Int) else (n : Int) - 18446744073709551616

/-- A primitive `Arg` carrier of args2.rs: ArgF64 (tag 0, the f64 carried as
its 64-bit pattern), ArgU64 (tag 1) or ArgI64 (tag 2). -/
inductive PrimArg where
  | argF64 (bits : Nat)
  | argU64 (v : Nat)
  | argI64 (v : Int)
deriving Repr, DecidableEq

def PrimArg.tag : PrimArg → Nat
  | .argF64 _ => 0
  | .argU64 _ => 1
  | .argI64 _ => 2

def PrimArg.bytes : PrimArg → List Nat
  | .argF64 b => le64 b
  | .argU64 v => le64 v
  | .argI64 v => le64 (encodeI64 v)

/-- In-range values for each carrier. -/
def PrimArg.wf : PrimArg → Prop
  | .argF64 b => b < 18446744073709551616
  | .argU64 v => v < 18446744073709551616
  | .argI64 v => -9223372036854775808 ≤ v ∧ v < 9223372036854775808

/-- `impl IntoArg for u32` (src/args2.rs:58-65): `ArgU64(self as _)`,
a zero-extension. -/
def intoArgU32 (v : Nat) : PrimArg := .argU64 v

/-- `impl IntoArg for u64` (src/args2.rs:67-74). -/
def intoArgU64 (v : Nat) : PrimArg := .argU64 v

/-- Byte image of `Args2<T1, T2>` (repr C packed: tag1, tag2, 6 pad bytes,
arg1, arg2) built by `args2` for two primitive carriers. -/
def args2PayloadPrim (a1 a2 : PrimArg) : List Nat :=
  [a1.tag, a2.tag, 0, 0, 0, 0, 0, 0] ++ a1.bytes ++ a2.bytes

/-- A value decoded from the payload by `decode_fmt_args2`. -/
inductive DecVal where
  | f64bits (b : Nat)
  | u64 (v : Nat)
  | i64 (v : Int)
  | pod (decodeFnAddr : Nat) (data : List Nat)
deriving Repr, DecidableEq

/-- One match arm of `decode_fmt_args2` (src/args2.rs:156-209): decode the
argument with the given tag at `off`, returning the value and the next
offset. For a pod tag the decoder pointer is read at `off`, the data is
`bytes[off+8 .. off+tag]`, and the offset advances by the tag value. -/
def decodeArg (tag : Nat) (bytes : List Nat) (off : Nat) : DecVal × Nat :=
  match tag with
  | 0 => (.f64bits (leRead8 (bytes.drop off)), off + 8)
  | 1 => (.u64 (leRead8 (bytes.drop off)), off + 8)
  | 2 => (.i64 (decodeI64 (leRead8 (bytes.drop off))), off + 8)
  | t => (.pod (leRead8 (bytes.drop off)) ((bytes.drop (off + 8)).take (t - 8)), off + t)

/-- Value that a correct decode of a primitive carrier should produce. -/
def PrimArg.decVal : PrimArg → DecVal
  | .argF64 b => .f64bits b
  | .argU64 v => .u64 v
  | .argI64 v => .i64 v

/-- Bytes of a string literal. -/
def strBytes (s : String) : List Nat := s.data.map Char.toNat

/-- Decimal digits (as bytes) of a natural number. -/
def natDigitsB (n : Nat) : List Nat := (Nat.toDigits 10 n).map Char.toNat

/-- Display form of a decoded value, as substituted into the format string.
Modelled from the spec: u64/i64 print in decimal; the f64 and pod arms are
carried opaquely (their Display goes through floating point or an embedded
function pointer, which the claims never exercise). -/
def displayDecVal : DecVal → List Nat
  | .u64 v => natDigitsB v
  | .i64 v => if v < 0 then 45 :: natDigitsB (- v).toNat else natDigitsB v.toNat
  | .f64bits b => natDigitsB b
  | .pod addr _ => natDigitsB addr

/-- Embedding of `write_loc_tid` (src/log.rs:175-182): module path, "::",
file base name, then `write!(out, "#{line} {tid}")` and "] ". -/
def writeLocTid (modulePath fileBase : List Nat) (line tid : Nat) : List Nat :=
  modulePath ++ [58, 58] ++ fileBase ++ [35] ++ natDigitsB line ++ [32]
    ++ natDigitsB tid ++ [93, 32]

/-- The site decoder generated by `__emit2` for the call site
`log(Info, "x=.. y=..", a0, a1)` (src/log.rs:153-171): it writes the source
location via `write_loc_tid`, decodes the two arguments from the payload
tags, and substitutes them into the format string in order. Modelled from
the spec: the per-tag `args2::decode` called at src/log.rs:161-162 is not
present under src/; its arms follow `decode_fmt_args2`, returning the value
and the advanced offset. -/
def shimOutputXY (modulePath fileBase : List Nat) (line tid : Nat)
    (bytes : List Nat) : List Nat :=
  let r1 := decodeArg (bytes.getD 0 0) bytes 8
  let r2 := decodeArg (bytes.getD 1 0) bytes r1.2
  writeLocTid modulePath fileBase line tid
    ++ strBytes "x=" ++ displayDecVal r1.1
    ++ strBytes " y=" ++ displayDecVal r2.1

/-- Occurrence of a byte sequence inside another. -/
def containsSeg (p l : List Nat) : Prop := ∃ u v, l = u ++ p ++ v

/-- Round x up to a multiple of a. -/
def roundUp (x a : Nat) : Nat := (x + a - 1) / a * a

/-- Byte size of `UserPodSnap<T>` (src/args2.rs:97-105, repr C with fields
decode_fn: u64 and data: T): data sits at offset 8 when align(T) ≤ 8 and the
struct size is padded to its alignment max(8, align(T)). -/
def podSnapSize (szT alignT : Nat) : Nat := roundUp (8 + szT) (max 8 alignT)

/-- `ARG_TAG` of `UserPodSnap<T>` (src/args2.rs:114-116):
`size_of::<T>() as u8 + 8`. -/
def podTag (szT : Nat) : Nat := (szT % 256 + 8) % 256

/-- Offset of the second argument inside the packed `Args2` image when the
first argument is a pod snap: the 8-byte tag block plus the snap size. -/
def encSecondOff (szT alignT : Nat) : Nat := 8 + podSnapSize szT alignT

/-- Offset at which `decode_fmt_args2` reads the second argument after a pod
first argument: the decoder advances by the tag value (src/args2.rs:175). -/
def decSecondOff (szT : Nat) : Nat := 8 + podTag szT

/-! Scratch buffer (src/my_bytes_mut.rs). -/

/-- Model of `MyBytesMut`: the backing vector and the write position. -/
structure MyBytesMut where
  inner : List Nat
  pos : Nat
deriving Repr, DecidableEq

/-- `MyBytesMut::with_capacity`: a zero-filled vector of that length. -/
def MyBytesMut.withCapacity (c : Nat) : MyBytesMut := ⟨List.replicate c 0, 0⟩

def MyBytesMut.clear (m : MyBytesMut) : MyBytesMut := { m with pos := 0 }

/-- Bytes written through `copy_nonoverlapping` into a vector at an offset. -/
def writeBytesAt (l : List Nat) (off : Nat) (src : List Nat) : List Nat :=
  l.take off ++ src ++ l.drop (off + src.length)

/-- `MyBytesMut::push` (src/my_bytes_mut.rs:22-29): writes through
`get_unchecked_mut` (in-bounds is the caller's obligation) and advances. -/
def MyBytesMut.push (m : MyBytesMut) (b : Nat) : MyBytesMut :=
  ⟨m.inner.set m.pos b, m.pos + 1⟩

/-- `MyBytesMut::extend_from_slice` (src/my_bytes_mut.rs:43-54): asserts
`inner.len() > pos + src.len()` and panics otherwise; the panic is modelled
as `none`. -/
def MyBytesMut.extendFromSlice (m : MyBytesMut) (src : List Nat) :
    Option MyBytesMut :=
  if m.pos + src.length < m.inner.length then
    some ⟨writeBytesAt m.inner m.pos src, m.pos + src.length⟩
  else none

/-- `MyBytesMut::safe_extend_from_slice` (src/my_bytes_mut.rs:31-41):
resizes the vector to the needed length when too small, then copies. -/
def MyBytesMut.safeExtendFromSlice (m : MyBytesMut) (src : List Nat) :
    MyBytesMut :=
  let inner2 := if m.inner.length < m.pos + src.length
    then m.inner ++ List.replicate (m.pos + src.length - m.inner.length) 0
    else m.inner
  ⟨writeBytesAt inner2 m.pos src, m.pos + src.length⟩

def MyBytesMut.advance (m : MyBytesMut) (n : Nat) : MyBytesMut :=
  { m with pos := m.pos + n }

/-- Copy into `unfilled()` then `advance`: the pattern used by `on_record`
for the time, ms/us and tid fields (copy length equals the advance). -/
def MyBytesMut.writeUnfilled (m : MyBytesMut) (src : List Nat) : MyBytesMut :=
  ⟨writeBytesAt m.inner m.pos src, m.pos + src.length⟩

def MyBytesMut.result (m : MyBytesMut) : List Nat := m.inner.take m.pos

/-! Formatting lookup tables and the time/tid caches (src/format.rs). -/

/-- `DEC_2DIGITS_LUT`: the 200-byte table "00".."99". -/
def DEC_2DIGITS_LUT : List Nat :=
  strBytes "00010203040506070809101112131415161718192021222324252627282930313233343536373839404142434445464748495051525354555657585960616263646566676869707172737475767778798081828384858687888990919293949596979899"

/-- The two decimal digit bytes of n < 100. -/
def digitPair (n : Nat) : List Nat := [48 + n / 10 % 10, 48 + n % 10]

/-- Two-byte slice of the 2-digit table at offset `n << 1`. -/
def lut2slice (n : Nat) : List Nat := (DEC_2DIGITS_LUT.drop (2 * n)).take 2

/-- `DEC_4DIGITS_LUT` as built by `build_4digit_table`: for each i < 1000 the
four bytes '.', hundreds, tens, ones. -/
def DEC_4DIGITS_LUT : List Nat :=
  (List.range 1000).flatMap fun i =>
    [46, 48 + i / 100 % 10, 48 + i / 10 % 10, 48 + i % 10]

/-- `lut_msus`: the 8 bytes ".mmm.uuu" copied from the 4-digit table at
offsets `ms << 2` and `us << 2`. -/
def lutMsus (ms us : Nat) : List Nat :=
  (DEC_4DIGITS_LUT.drop (4 * ms)).take 4 ++ (DEC_4DIGITS_LUT.drop (4 * us)).take 4

/-- `TidCache::new(32)`: for each tid in 0..32 the 4 bytes "T=" ++ two
digits from the 2-digit table. -/
def tidLut : List Nat :=
  (List.range 32).flatMap fun tid => [84, 61] ++ lut2slice tid

/-- `TidCache::write`: the 4 bytes copied from the tid table at `tid << 2`. -/
def tidWrite (tid : Nat) : List Nat := (tidLut.drop (4 * tid)).take 4

/-- Howard Hinnant civil-from-days (src/format.rs:98-111), month and day.
Rust `/` on i64 truncates toward zero, hence `Int.tdiv`. -/
def civilFromDays (days : Int) : Int × Int :=
  let z := days + 719468
  let era := (if 0 ≤ z then z else z - 146096).tdiv 146097
  let doe := z - era * 146097
  let yoe := (doe - doe.tdiv 1460 + doe.tdiv 36524 - doe.tdiv 146096).tdiv 365
  let doy := doe - (365 * yoe + yoe.tdiv 4 - yoe.tdiv 100)
  let mp := (5 * doy + 2).tdiv 153
  let d := doy - (153 * mp + 2).tdiv 5 + 1
  let m := mp + (if mp < 10 then 3 else -9)
  (m, d)

/-- `split_utc` (src/format.rs:113-122): div_euclid/rem_euclid are the
euclidean `Int.ediv`/`Int.emod`; the in-day divisions are nonneg so Rust `/`
matches `Int.tdiv`. Returns (month, day, hour, minute, second). -/
def splitUtc (secs : Int) : Int × Int × Int × Int × Int :=
  let days := secs.ediv 86400
  let sod := secs.emod 86400
  let md := civilFromDays days
  (md.1, md.2, sod.tdiv 3600, (sod.tmod 3600).tdiv 60, sod.tmod 60)

/-- State of `TimeCache`: last seconds value and its 32-byte buffer whose
first 14 bytes are the rendered "MM-DD HH:MM:SS". -/
structure TimeCache where
  sec : Int
  buf : List Nat
deriving Repr, DecidableEq

/-- `TimeCache::new`: sec = i64::MAX, buffer "00-00 00:00:00" padded to 32. -/
def TimeCache.new : TimeCache :=
  ⟨9223372036854775807, strBytes "00-00 00:00:00" ++ List.replicate 18 0⟩

/-- `TimeCache::refresh_dt` (src/format.rs:49-73): on a cache hit copy the
cached 14 bytes; otherwise write the five two-digit fields at offsets
0, 3, 6, 9, 12 of the cache buffer and copy out its first 14 bytes.
Returns the new cache and the 14 bytes written to the destination. -/
def TimeCache.refreshDt (tc : TimeCache) (currSec : Int) : TimeCache × List Nat :=
  if currSec = tc.sec then (tc, tc.buf.take 14)
  else
    let md := splitUtc currSec
    let b1 := writeBytesAt tc.buf 0 (lut2slice md.1.toNat)
    let b2 := writeBytesAt b1 3 (lut2slice md.2.1.toNat)
    let b3 := writeBytesAt b2 6 (lut2slice md.2.2.1.toNat)
    let b4 := writeBytesAt b3 9 (lut2slice md.2.2.2.1.toNat)
    let b5 := writeBytesAt b4 12 (lut2slice md.2.2.2.2.toNat)
    (⟨currSec, b5⟩, b5.take 14)

/-- `LEVEL_STRS` (src/format.rs:76-83), with the ANSI escapes. -/
def LEVEL_STRS : List (List Nat) :=
  [strBytes "trace", strBytes "debug", strBytes "\x1b[32minfo\x1b[m ",
   strBytes "\x1b[31mwarn\x1b[m ", strBytes "\x1b[31merror\x1b[m",
   strBytes "unk  "]

/-! Batched console sink (src/console_sink.rs). I/O is modelled by returning
the bytes written to stdout; `read_tsc()` at flush time is the `resetTsc`
parameter. -/

/-- i64 interpretation of a nonneg 64-bit pattern. -/
def toI64 (x : Int) : Int :=
  if x < 9223372036854775808 then x else x - 18446744073709551616

/-- Rust `i64::wrapping_sub`. -/
def i64WrapSub (a b : Int) : Int := toI64 ((a - b) % 18446744073709551616)

structure ConsoleBatchSink where
  batch : List Nat
  scratch : MyBytesMut
  flushBytes : Nat
  flushIntervalCycles : Int
  lastFlushCycles : Int
  timeCache : TimeCache
deriving Repr, DecidableEq

/-- `ConsoleBatchSink::new` (src/console_sink.rs:34-56); `last_flush_cycles`
is the `read_tsc()` at construction, passed in. -/
def ConsoleBatchSink.new (nowTsc : Int) : ConsoleBatchSink :=
  { batch := []
    scratch := MyBytesMut.withCapacity 512
    flushBytes := 262144
    flushIntervalCycles := 1500000
    lastFlushCycles := nowTsc
    timeCache := TimeCache.new }

/-- `should_flush` (src/console_sink.rs:58-61). -/
def ConsoleBatchSink.shouldFlush (s : ConsoleBatchSink) (nowCycles : Int) : Bool :=
  decide (s.flushBytes ≤ s.batch.length)
    || decide (s.flushIntervalCycles ≤ i64WrapSub nowCycles s.lastFlushCycles)

/-- Bytes of the debug `println!("flush_now")` at src/console_sink.rs:65. -/
def FLUSH_NOW_LINE : List Nat := strBytes "flush_now" ++ [10]

/-- `flush_now` (src/console_sink.rs:64-80): prints the debug line, then if
the batch is non-empty writes it to stdout, clears it, and resets
`last_flush_cycles` to a fresh `read_tsc()`. Returns the new sink and the
bytes that reached stdout. -/
def ConsoleBatchSink.flushNow (s : ConsoleBatchSink) (resetTsc : Int) :
    ConsoleBatchSink × List Nat :=
  if s.batch.isEmpty then
    ({ s with lastFlushCycles := resetTsc }, FLUSH_NOW_LINE)
  else
    ({ s with batch := [], lastFlushCycles := resetTsc },
     FLUSH_NOW_LINE ++ s.batch)

/-- Rendering part of `on_record` (src/console_sink.rs:84-120): split the
nanosecond timestamp, assemble '[', date-time, ".mmm.uuu", ' ', tid, ' ',
level string into the scratch buffer, invoke the site decoder (whose output
bytes are `shimBytes`, appended via the Write impl, i.e. extend_from_slice),
append the newline, and extend the batch with the scratch contents. -/
def ConsoleBatchSink.appendRecord (s : ConsoleBatchSink) (tid level : Nat)
    (currNs : Int) (shimBytes : List Nat) : Option ConsoleBatchSink :=
  let currSec := currNs.tdiv 1000000000
  let subNs := currNs.tmod 1000000000
  let subUs := subNs.tdiv 1000
  let currMs := (subUs.tdiv 1000).toNat
  let currUs := (subUs.tmod 1000).toNat
  let m1 := s.scratch.clear.push 91
  let tcd := s.timeCache.refreshDt currSec
  let m2 := m1.writeUnfilled tcd.2
  let m3 := m2.writeUnfilled (lutMsus currMs currUs)
  let m4 := m3.push 32
  let m5 := m4.writeUnfilled (tidWrite tid)
  let m6 := m5.push 32
  match m6.extendFromSlice (LEVEL_STRS.getD level []) with
  | none => none
  | some m7 =>
    match m7.extendFromSlice shimBytes with
    | none => none
    | some m8 =>
      let m9 := m8.push 10
      some { s with scratch := m9, timeCache := tcd.1,
                    batch := s.batch ++ m9.result }

/-- `on_record` (src/console_sink.rs:84-127): render and append, then flush
if `should_flush(log_meta.tsc)`. Returns the sink and the stdout bytes. -/
def ConsoleBatchSink.onRecord (s : ConsoleBatchSink) (tid level : Nat)
    (tsc currNs : Int) (shimBytes : List Nat) (resetTsc : Int) :
    Option (ConsoleBatchSink × List Nat) :=
  match s.appendRecord tid level currNs shimBytes with
  | none => none
  | some s2 =>
    if s2.shouldFlush tsc then some (s2.flushNow resetTsc)
    else some (s2, [])

/-- `on_idle` (src/console_sink.rs:131-138): flush only when the batch is
non-empty and the age bound has elapsed. -/
def ConsoleBatchSink.onIdle (s : ConsoleBatchSink) (nowCycles resetTsc : Int) :
    ConsoleBatchSink × List Nat :=
  if !s.batch.isEmpty
      && decide (s.flushIntervalCycles ≤ i64WrapSub nowCycles s.lastFlushCycles)
  then s.flushNow resetTsc
  else (s, [])

/-- Line layout asserted by claim C7, transcribed from the claim text: '[',
14-byte date-time, '.', 3 ms digits, '.', 3 us digits, ' ', thread token
"TNN", ' ', level string, then "module::file#line] ", body, newline. -/
def claimedC7Line (dt14 : List Nat) (ms us tid : Nat) (lvl modulePath fileBase : List Nat)
    (line : Nat) (body : List Nat) : List Nat :=
  [91] ++ dt14 ++ [46, 48 + ms / 100 % 10, 48 + ms / 10 % 10, 48 + ms % 10]
    ++ [46, 48 + us / 100 % 10, 48 + us / 10 % 10, 48 + us % 10]
    ++ [32, 84] ++ digitPair tid ++ [32] ++ lvl
    ++ modulePath ++ [58, 58] ++ fileBase ++ [35] ++ natDigitsB line ++ [93, 32]
    ++ body ++ [10]

/-- The 14 date-time bytes "MM-DD HH:MM:SS" for given field values. -/
def dtRender (mo da hh mi ss : Nat) : List Nat :=
  digitPair mo ++ [45] ++ digitPair da ++ [32] ++ digitPair hh ++ [58]
    ++ digitPair mi ++ [58] ++ digitPair ss


/-- Concrete sink fixture for the sink claims: 54-byte scratch (exactly the
rendered line length of the fixture record), thresholds as in
`ConsoleBatchSink::new`, last flush at cycle 0. -/
def fixtureSink : ConsoleBatchSink :=
  { batch := []
    scratch := ⟨List.replicate 54 0, 0⟩
    flushBytes := 262144
    flushIntervalCycles := 1500000
    lastFlushCycles := 0
    timeCache := TimeCache.new }

/-- Site-decoder output fixture: module "m", file "f", line 1, tid 0,
body "b". -/
def fixtureShim : List Nat :=
  writeLocTid (strBytes "m") (strBytes "f") 1 0 ++ strBytes "b"

/-! Helper lemmas. -/

theorem leRead8_le64 (v : Nat) (h : v < 18446744073709551616) (rest : List Nat) :
    leRead8 (le64 v ++ rest) = v := by
  simp only [le64, List.cons_append, List.nil_append, leRead8]
  omega

theorem leRead8_le64_nil (v : Nat) (h : v < 18446744073709551616) :
    leRead8 (le64 v) = v := by
  have := leRead8_le64 v h []
  simpa using this

theorem encodeI64_lt (v : Int) : encodeI64 v < 18446744073709551616 := by
  unfold encodeI64
  omega

theorem decodeI64_encodeI64 (v : Int) (h1 : -9223372036854775808 ≤ v)
    (h2 : v < 9223372036854775808) : decodeI64 (encodeI64 v) = v := by
  unfold decodeI64 encodeI64
  split <;> omega

theorem toI32_of_lt {x : Nat} (h : x < 2147483648) : toI32 x = (x : Int) := by
  have hx : x % U32M = x := Nat.mod_eq_of_lt (by unfold U32M; omega)
  unfold toI32
  rw [hx]
  simp [h]

theorem toI32_of_ge {x : Nat} (h1 : 2147483648 ≤ x) (h2 : x < U32M) :
    toI32 x = (x : Int) - (U32M : Int) := by
  have hx : x % U32M = x := Nat.mod_eq_of_lt h2
  unfold toI32
  rw [hx]
  simp [Nat.not_lt.mpr h1]

theorem tryAlloc_characterization (blkCnt k : Nat) (s : QState) (len : Nat)
    (hk : blkCnt = 2 ^ k) (hk30 : k ≤ 30)
    (hRW : s.readIdx ≤ s.writingIdx) (hWin : s.writingIdx ≤ s.readIdx + blkCnt)
    (hC : s.readIdxCache ≤ s.readIdx)
    (hD : s.writingIdx + blkCount len < 2147483648) :
    (((tryAlloc blkCnt s len).2).isSome ↔
      blkCount len + rewindPad blkCnt s.writingIdx len ≤ blkCnt - (s.writingIdx - s.readIdx))
    ∧ (∀ a, (tryAlloc blkCnt s len).2 = some a →
        a.blkSz = blkCount len
        ∧ a.startPhys = (if padToEnd blkCnt s.writingIdx < blkCount len then 0
                         else s.writingIdx % blkCnt)
        ∧ (tryAlloc blkCnt s len).1.blocks =
            (if padToEnd blkCnt s.writingIdx < blkCount len then
               s.blocks.set (s.writingIdx % blkCnt) 0 else s.blocks)) := by
  obtain ⟨bl, W, wn, R, C⟩ := s
  simp only at hRW hWin hC hD
  have keyNone : ∀ bc w r nn : Nat, r ≤ w → w ≤ r + bc → bc ≤ w + nn →
      r < w + nn - bc → ¬ (nn ≤ bc - (w - r)) := by
    intro bc w r nn h1 h2 h3 h4
    omega
  have keySome : ∀ bc w r nn : Nat, r ≤ w → w ≤ r + bc → bc ≤ w + nn →
      w + nn - bc ≤ r → nn ≤ bc - (w - r) := by
    intro bc w r nn h1 h2 h3 h4
    omega
  have keyWrap : ∀ bc w r nn : Nat, r ≤ w → w + nn < bc → nn ≤ bc - (w - r) := by
    intro bc w r nn h1 h2
    omega
  have hbpos : 0 < blkCnt := by rw [hk]; exact Nat.two_pow_pos k
  have hble : blkCnt ≤ 1073741824 := by
    rw [hk]
    calc 2 ^ k ≤ 2 ^ 30 := Nat.pow_le_pow_right (by omega) hk30
    _ = 1073741824 := by norm_num
  have hdval : blkCount len = (len + 87) / 64 := by
    simp only [blkCount, MSG_HEADER_SIZE]
  rw [hdval] at hD
  have hmask : W &&& (blkCnt - 1) = W % blkCnt := by
    rw [hk, Nat.and_pow_two_sub_one_eq_mod]
  have hWmod : W % blkCnt < blkCnt := Nat.mod_lt W hbpos
  have hlen_ok : ¬ (len + MSG_HEADER_SIZE ≥ U64M) := by
    simp only [MSG_HEADER_SIZE, U64M]
    omega
  have hblk : divCeilU (len + MSG_HEADER_SIZE) BLOCK_SIZE % U32M = (len + 87) / 64 := by
    simp only [divCeilU, MSG_HEADER_SIZE, BLOCK_SIZE, U64M, U32M]
    omega
  simp only [tryAlloc, rewindPad, padToEnd, hdval]
  rw [if_neg hlen_ok]
  rw [hblk, hmask]
  set d := (len + 87) / 64 with hddef
  set p := blkCnt - W % blkCnt with hpdef
  have hNmod : (d + if p < d then p else 0) % U32M = d + if p < d then p else 0 := by
    apply Nat.mod_eq_of_lt
    simp only [U32M]
    split <;> omega
  rw [hNmod]
  set N := d + (if p < d then p else 0) with hNdef
  have hNle : N ≤ d + p := by rw [hNdef]; split <;> omega
  have hNge : d ≤ N := by rw [hNdef]; split <;> omega
  have hU32 : U32M = 4294967296 := rfl
  have hWN : W + N < U32M := by rw [hU32]; omega
  have hmod32 : blkCnt % U32M = blkCnt := Nat.mod_eq_of_lt (by rw [hU32]; omega)
  rw [hmod32, Nat.mod_eq_of_lt hWN]
  have hWp : (W + p) % U32M = W + p := Nat.mod_eq_of_lt (by rw [hU32]; omega)
  have hmask2 : (W + p) % U32M &&& (blkCnt - 1) = 0 := by
    rw [hWp]
    have hsum : W + p = blkCnt * (W / blkCnt + 1) := by
      have := Nat.div_add_mod W blkCnt
      rw [hpdef]
      ring_nf
      omega
    rw [hk, Nat.and_pow_two_sub_one_eq_mod, ← hk, hsum, Nat.mul_mod_right]
  rw [hmask2]
  have hCi : toI32 C = (C : Int) := toI32_of_lt (by omega)
  have hRi : toI32 R = (R : Int) := toI32_of_lt (by omega)
  rw [hCi, hRi]
  rcases Nat.lt_or_ge (W + N) blkCnt with hcase | hcase
  · have hmv : (W + N + (U32M - blkCnt)) % U32M = W + N + (U32M - blkCnt) := by
      apply Nat.mod_eq_of_lt
      rw [hU32]
      omega
    have hmi : toI32 (W + N + (U32M - blkCnt)) = (W : Int) + (N : Int) - (blkCnt : Int) := by
      rw [toI32_of_ge (by rw [hU32]; omega) (by rw [hU32]; omega)]
      rw [hU32]
      omega
    rw [hmv, hmi]
    have hnotlt : ¬ ((C : Int) < (W : Int) + (N : Int) - (blkCnt : Int)) := by
      have h5 : W + N < blkCnt := hcase
      omega
    rw [if_neg hnotlt]
    constructor
    · constructor
      · intro _
        exact keyWrap blkCnt W R N hRW hcase
      · intro _
        split <;> simp
    · intro a ha
      refine ⟨?_, ?_, ?_⟩
      · split at ha <;> (simp only [Option.some.injEq] at ha; subst ha; rfl)
      · split at ha <;> rename_i hpd
        · simp only [Option.some.injEq] at ha
          subst ha
          rw [if_pos hpd]
        · simp only [Option.some.injEq] at ha
          subst ha
          rw [if_neg hpd]
      · split at ha <;> rename_i hpd
        · rw [if_pos hpd, if_pos hpd]
        · rw [if_neg hpd, if_neg hpd]
  · have hmv : (W + N + (U32M - blkCnt)) % U32M = W + N - blkCnt := by
      rw [hU32]
      have h1 : W + N < 4294967296 := by rw [hU32] at hWN; exact hWN
      omega
    have hmi : toI32 (W + N - blkCnt) = ((W + N - blkCnt : Nat) : Int) := by
      apply toI32_of_lt
      omega
    rw [hmv, hmi]
    by_cases hcc : (C : Int) < ((W + N - blkCnt : Nat) : Int)
    · rw [if_pos hcc]
      by_cases hrr : (R : Int) < ((W + N - blkCnt : Nat) : Int)
      · rw [if_pos hrr]
        have hRlt : R < W + N - blkCnt := by exact_mod_cast hrr
        constructor
        · simp only [Option.isSome_none, Bool.false_eq_true, false_iff]
          exact keyNone blkCnt W R N hRW hWin hcase hRlt
        · intro a ha
          simp at ha
      · rw [if_neg hrr]
        have hRge : W + N - blkCnt ≤ R := by
          have h2 : ((W + N - blkCnt : Nat) : Int) ≤ (R : Int) := le_of_not_lt hrr
          exact_mod_cast h2
        constructor
        · constructor
          · intro _
            exact keySome blkCnt W R N hRW hWin hcase hRge
          · intro _
            split <;> simp
        · intro a ha
          refine ⟨?_, ?_, ?_⟩
          · split at ha <;> (simp only [Option.some.injEq] at ha; subst ha; rfl)
          · split at ha <;> rename_i hpd
            · simp only [Option.some.injEq] at ha
              subst ha
              rw [if_pos hpd]
            · simp only [Option.some.injEq] at ha
              subst ha
              rw [if_neg hpd]
          · split at ha <;> rename_i hpd
            · rw [if_pos hpd, if_pos hpd]
            · rw [if_neg hpd, if_neg hpd]
    · rw [if_neg hcc]
      have hCge : W + N - blkCnt ≤ C := by
        have h2 : ((W + N - blkCnt : Nat) : Int) ≤ (C : Int) := le_of_not_lt hcc
        exact_mod_cast h2
      have hRge : W + N - blkCnt ≤ R := le_trans hCge hC
      constructor
      · constructor
        · intro _
          exact keySome blkCnt W R N hRW hWin hcase hRge
        · intro _
          split <;> simp
      · intro a ha
        refine ⟨?_, ?_, ?_⟩
        · split at ha <;> (simp only [Option.some.injEq] at ha; subst ha; rfl)
        · split at ha <;> rename_i hpd
          · simp only [Option.some.injEq] at ha
            subst ha
            rw [if_pos hpd]
          · simp only [Option.some.injEq] at ha
            subst ha
            rw [if_neg hpd]
        · split at ha <;> rename_i hpd
          · rw [if_pos hpd, if_pos hpd]
          · rw [if_neg hpd, if_neg hpd]

theorem front_no_marker (blkCnt : Nat) :
    ∀ (fuel : Nat) (blocks : List Nat) (r w i sz : Nat),
      (front blkCnt fuel blocks r w).2 = some (i, sz) →
      sz ≠ 0 ∧ blocks.getD i 0 = sz := by
  intro fuel
  induction fuel with
  | zero =>
    intro blocks r w i sz h
    simp [front] at h
  | succ n ih =>
    intro blocks r w i sz h
    simp only [front] at h
    split at h
    · simp at h
    · split at h
      · exact ih blocks _ w i sz h
      · rename_i hsz
        simp only [Option.some.injEq, Prod.mk.injEq] at h
        obtain ⟨h1, h2⟩ := h
        subst h1
        subst h2
        exact ⟨hsz, rfl⟩

theorem front_skips_marker (blkCnt fuel : Nat) (blocks : List Nat) (r w : Nat)
    (hne : r ≠ w) (hz : blocks.getD (r &&& (blkCnt - 1)) 0 = 0) :
    front blkCnt (fuel + 1) blocks r w
      = front blkCnt fuel blocks ((r + (blkCnt - (r &&& (blkCnt - 1)))) % U32M) w := by
  simp only [front, hne, hz]
  simp

/-! Claim theorems for the queue. -/

/-- Claim C10: try_alloc is atomic on failure. Whenever it returns None the
ring blocks, writing_idx, written_idx and read_idx are exactly as before the
call; only the producer-private read_idx cache may have been refreshed to the
current read_idx. In particular a failed allocation never writes a rewind
marker into the ring, because the capacity check precedes the marker store. -/
theorem tryAlloc_none_no_mutation (blkCnt : Nat) (s : QState) (len : Nat)
    (h : (tryAlloc blkCnt s len).2 = none) :
    (tryAlloc blkCnt s len).1.blocks = s.blocks
    ∧ (tryAlloc blkCnt s len).1.writingIdx = s.writingIdx
    ∧ (tryAlloc blkCnt s len).1.writtenIdx = s.writtenIdx
    ∧ (tryAlloc blkCnt s len).1.readIdx = s.readIdx
    ∧ ((tryAlloc blkCnt s len).1.readIdxCache = s.readIdxCache
       ∨ (tryAlloc blkCnt s len).1.readIdxCache = s.readIdx) := by
  obtain ⟨bl, W, wn, R, C⟩ := s
  simp only [tryAlloc] at h ⊢
  split_ifs at h ⊢ <;> simp_all

/-- Witness for C10 at a full queue: BLK_CNT = 8, writing_idx = 8,
read_idx = 0, payload 40 bytes; try_alloc returns None and mutates nothing
but the cache. -/
theorem tryAlloc_none_no_mutation_witness :
    (tryAlloc 8 ⟨List.replicate 8 1, 8, 8, 0, 0⟩ 40).2 = none
    ∧ ((tryAlloc 8 ⟨List.replicate 8 1, 8, 8, 0, 0⟩ 40).1.blocks
          = (⟨List.replicate 8 1, 8, 8, 0, 0⟩ : QState).blocks
       ∧ (tryAlloc 8 ⟨List.replicate 8 1, 8, 8, 0, 0⟩ 40).1.writingIdx
          = (⟨List.replicate 8 1, 8, 8, 0, 0⟩ : QState).writingIdx
       ∧ (tryAlloc 8 ⟨List.replicate 8 1, 8, 8, 0, 0⟩ 40).1.writtenIdx
          = (⟨List.replicate 8 1, 8, 8, 0, 0⟩ : QState).writtenIdx
       ∧ (tryAlloc 8 ⟨List.replicate 8 1, 8, 8, 0, 0⟩ 40).1.readIdx
          = (⟨List.replicate 8 1, 8, 8, 0, 0⟩ : QState).readIdx
       ∧ ((tryAlloc 8 ⟨List.replicate 8 1, 8, 8, 0, 0⟩ 40).1.readIdxCache
            = (⟨List.replicate 8 1, 8, 8, 0, 0⟩ : QState).readIdxCache
          ∨ (tryAlloc 8 ⟨List.replicate 8 1, 8, 8, 0, 0⟩ 40).1.readIdxCache
            = (⟨List.replicate 8 1, 8, 8, 0, 0⟩ : QState).readIdx)) :=
  ⟨by decide, tryAlloc_none_no_mutation 8 ⟨List.replicate 8 1, 8, 8, 0, 0⟩ 40 (by decide)⟩

/-- Claim C1 counterexample: on a fresh 1024-block queue, payload_len =
64·2^31 − 24 has exact block count 2^31, far above the 1024 free blocks, yet
try_alloc returns Some: the i32 comparison of the wrapped min_read_idx sees a
negative value and accepts the allocation. -/
theorem claim1_counterexample :
    ((tryAlloc 1024 (QState.new 1024) 137438953448).2).isSome = true
    ∧ ¬ (blkCount 137438953448
          + rewindPad 1024 (QState.new 1024).writingIdx 137438953448
          ≤ 1024 - ((QState.new 1024).writingIdx - (QState.new 1024).readIdx)) := by
  exact ⟨by decide, by decide⟩

/-- Claim C1 (amended): under the producer invariant read_idx ≤ writing_idx ≤
read_idx + BLK_CNT and cache ≤ read_idx, and within the signed-32-bit window
writing_idx + blk_count < 2^31, try_alloc(payload_len) returns Some iff the
free block count BLK_CNT − (writing_idx − read_idx) is at least
blk_count + rewind pad (pad-to-end when the message would straddle the ring
end). Equivalently it returns None exactly when the refreshed read_idx is
below min_read_idx. -/
theorem claim1_amended (blkCnt k : Nat) (s : QState) (len : Nat)
    (hk : blkCnt = 2 ^ k) (hk30 : k ≤ 30)
    (hRW : s.readIdx ≤ s.writingIdx) (hWin : s.writingIdx ≤ s.readIdx + blkCnt)
    (hC : s.readIdxCache ≤ s.readIdx)
    (hD : s.writingIdx + blkCount len < 2147483648) :
    ((tryAlloc blkCnt s len).2).isSome = true ↔
      blkCount len + rewindPad blkCnt s.writingIdx len
        ≤ blkCnt - (s.writingIdx - s.readIdx) :=
  (tryAlloc_characterization blkCnt k s len hk hk30 hRW hWin hC hD).1

/-- Witness for the amended C1 at BLK_CNT = 8, writing_idx = 7, read_idx = 4,
payload 100 bytes (2 blocks, rewind pad 1): the allocation succeeds and the
free-block bound holds. -/
theorem claim1_amended_witness :
    ((8 : Nat) = 2 ^ 3 ∧ (3 : Nat) ≤ 30 ∧ (4 : Nat) ≤ 7 ∧ (7 : Nat) ≤ 4 + 8
      ∧ (0 : Nat) ≤ 4 ∧ 7 + blkCount 100 < 2147483648)
    ∧ (((tryAlloc 8 ⟨List.replicate 8 9, 7, 7, 4, 0⟩ 100).2).isSome = true ↔
        blkCount 100 + rewindPad 8 7 100 ≤ 8 - (7 - 4)) :=
  ⟨⟨by decide, by decide, by decide, by decide, by decide, by decide⟩,
   claim1_amended 8 3 ⟨List.replicate 8 9, 7, 7, 4, 0⟩ 100 (by decide) (by decide)
     (by decide) (by decide) (by decide) (by decide)⟩

/-- Claim C2 counterexample: the no-straddle invariant fails in a reachable
state. On the fresh 1024-block queue, the same pathological payload as in C1
(64·2^31 − 24 bytes, block count 2^31) is accepted by try_alloc: the message
is placed at physical index 0 with a block span of 2^31 blocks, far beyond
the 1024-block array, so the allocated message does straddle (overrun) the
physical end of the block array. -/
theorem claim2_counterexample :
    (tryAlloc 1024 (QState.new 1024) 137438953448).2
      = some ⟨0, 137438953448, 0, 2147483648⟩
    ∧ ¬ ((⟨0, 137438953448, 0, 2147483648⟩ : AllocRes).startPhys
          + (⟨0, 137438953448, 0, 2147483648⟩ : AllocRes).blkSz ≤ 1024) :=
  ⟨by decide, by decide⟩

/-- Claim C2 (amended): within the signed-32-bit window writing_idx +
blk_count < 2^31 (unwrapped cursors with the producer invariant read_idx ≤
writing_idx ≤ read_idx + BLK_CNT, cache ≤ read_idx), no allocated message
straddles the physical end of the block array. A successful try_alloc places
the message inside one physical span (startPhys + blkSz ≤ BLK_CNT); when the
block count exceeds the pad-to-end count, a rewind marker (size 0) is
written at the current block and the message starts at physical index 0.
front never returns a size-0 marker, and on reading size 0 it advances
read_idx by the pad-to-end count and retries. Outside the window the same
wrapping escape as in C1 lets try_alloc place a span exceeding the array
(see the counterexample). -/
theorem claim2_rewind_no_straddle (blkCnt k : Nat) (s : QState) (len : Nat)
    (fuel : Nat) (blocks2 : List Nat) (r w i sz : Nat)
    (hk : blkCnt = 2 ^ k) (hk30 : k ≤ 30)
    (hlen : s.blocks.length = blkCnt)
    (hRW : s.readIdx ≤ s.writingIdx) (hWin : s.writingIdx ≤ s.readIdx + blkCnt)
    (hC : s.readIdxCache ≤ s.readIdx)
    (hD : s.writingIdx + blkCount len < 2147483648) :
    (∀ a, (tryAlloc blkCnt s len).2 = some a →
       a.startPhys + a.blkSz ≤ blkCnt
       ∧ (padToEnd blkCnt s.writingIdx < blkCount len →
            a.startPhys = 0
            ∧ (tryAlloc blkCnt s len).1.blocks.getD (s.writingIdx % blkCnt) 0 = 0))
    ∧ ((front blkCnt fuel blocks2 r w).2 = some (i, sz) → sz ≠ 0)
    ∧ (r ≠ w → blocks2.getD (r &&& (blkCnt - 1)) 0 = 0 →
       front blkCnt (fuel + 1) blocks2 r w
         = front blkCnt fuel blocks2 ((r + (blkCnt - (r &&& (blkCnt - 1)))) % U32M) w) := by
  obtain ⟨hiff, hsome⟩ := tryAlloc_characterization blkCnt k s len hk hk30 hRW hWin hC hD
  have hbpos : 0 < blkCnt := by rw [hk]; exact Nat.two_pow_pos k
  have hWmod : s.writingIdx % blkCnt < blkCnt := Nat.mod_lt _ hbpos
  refine ⟨?_, ?_, ?_⟩
  · intro a ha
    obtain ⟨hbsz, hsp, hbl⟩ := hsome a ha
    have hs : ((tryAlloc blkCnt s len).2).isSome = true := by rw [ha]; rfl
    have hcap : blkCount len + rewindPad blkCnt s.writingIdx len
        ≤ blkCnt - (s.writingIdx - s.readIdx) := hiff.mp hs
    constructor
    · rw [hbsz, hsp]
      by_cases hpd : padToEnd blkCnt s.writingIdx < blkCount len
      · rw [if_pos hpd]
        have hrp : rewindPad blkCnt s.writingIdx len = padToEnd blkCnt s.writingIdx := by
          unfold rewindPad
          rw [if_pos hpd]
        rw [hrp] at hcap
        omega
      · rw [if_neg hpd]
        unfold padToEnd at hpd
        omega
    · intro hpd
      refine ⟨by rw [hsp, if_pos hpd], ?_⟩
      rw [hbl, if_pos hpd]
      rw [List.getD_eq_getElem?_getD, List.getElem?_set_self (by omega)]
      rfl
  · intro h
    exact (front_no_marker blkCnt fuel blocks2 r w i sz h).1
  · intro hne hz
    exact front_skips_marker blkCnt fuel blocks2 r w hne hz

/-- Witness for C2: BLK_CNT = 8, writing_idx = 7, payload 100 bytes (rewind
case: marker written at block 7, message at physical 0); front on a ring with
a marker at the head skips it by the pad-to-end count. -/
theorem claim2_witness :
    ((8 : Nat) = 2 ^ 3 ∧ (3 : Nat) ≤ 30
      ∧ (List.replicate 8 9 : List Nat).length = 8
      ∧ (4 : Nat) ≤ 7 ∧ (7 : Nat) ≤ 4 + 8 ∧ (0 : Nat) ≤ 4
      ∧ 7 + blkCount 100 < 2147483648)
    ∧ ((∀ a, (tryAlloc 8 ⟨List.replicate 8 9, 7, 7, 4, 0⟩ 100).2 = some a →
          a.startPhys + a.blkSz ≤ 8
          ∧ (padToEnd 8 7 < blkCount 100 →
               a.startPhys = 0
               ∧ (tryAlloc 8 ⟨List.replicate 8 9, 7, 7, 4, 0⟩ 100).1.blocks.getD (7 % 8) 0 = 0))
       ∧ ((front 8 1 [0, 3, 0, 0, 0, 0, 0, 0] 0 2).2 = some (5, 6) → (6 : Nat) ≠ 0)
       ∧ ((0 : Nat) ≠ 2 → ([0, 3, 0, 0, 0, 0, 0, 0] : List Nat).getD (0 &&& (8 - 1)) 0 = 0 →
          front 8 (1 + 1) [0, 3, 0, 0, 0, 0, 0, 0] 0 2
            = front 8 1 [0, 3, 0, 0, 0, 0, 0, 0] ((0 + (8 - (0 &&& (8 - 1)))) % U32M) 2)) :=
  ⟨⟨by decide, by decide, by decide, by decide, by decide, by decide, by decide⟩,
   claim2_rewind_no_straddle 8 3 ⟨List.replicate 8 9, 7, 7, 4, 0⟩ 100 1
     [0, 3, 0, 0, 0, 0, 0, 0] 0 2 5 6 (by decide) (by decide) (by decide) (by decide)
     (by decide) (by decide) (by decide)⟩

/-! Claim theorems for the TSC clock and the argument capture. -/

/-- Claim C3 (code bug): save_param violates the claimed seqlock protocol.
Its very first store (src/tscns.rs:179) writes the published field BASE_NS
(with the error term base_ns − sys_ns) before PARAM_SEQ is incremented to an
odd value, so the claimed discipline fails on the store sequence; a tsc2ns
reader running entirely before the odd increment observes an even, unchanged
sequence yet the mixed tuple (old BASE_TSC, error value in BASE_NS, old
NS_PER_TSC), which never existed as a committed tuple. The store was
evidently meant for BASE_NS_ERR, which calibrate reads but which is never
written. Shown at save_param(100, 1000, 900, ·) over a committed state
(base_tsc 10, base_ns 20, ns_per_tsc 30) with PARAM_SEQ = 0. -/
theorem claim3_seqlock_violation :
    seqOddFirst (saveParamEvents 0 100 1000 900 5 77) = false
    ∧ (saveParamEvents 0 100 1000 900 5 77).getD 0 (.seqWrite 0)
        = .writeField .baseNs 100
    ∧ (applyTscEvent ⟨0, 10, 20, 30, 0⟩
         ((saveParamEvents 0 100 1000 900 5 77).getD 0 (.seqWrite 0))).paramSeq % 2 = 0
    ∧ (applyTscEvent ⟨0, 10, 20, 30, 0⟩
         ((saveParamEvents 0 100 1000 900 5 77).getD 0 (.seqWrite 0))).baseNs = 100
    ∧ (applyTscEvent ⟨0, 10, 20, 30, 0⟩
         ((saveParamEvents 0 100 1000 900 5 77).getD 0 (.seqWrite 0))).baseTsc = 10
    ∧ (applyTscEvent ⟨0, 10, 20, 30, 0⟩
         ((saveParamEvents 0 100 1000 900 5 77).getD 0 (.seqWrite 0))).nsPerTsc = 30 := by
  decide

/-- Claim C4: the call site log(Info, "x=.. y=..", 7u32, 42u64) produces the
payload [tag 1, tag 1, six pad bytes, 7 LE64, 42 LE64], and the site decoder
substitutes the arguments so the output contains "x=7 y=42". -/
theorem claim4_callsite_payload :
    args2PayloadPrim (intoArgU32 7) (intoArgU64 42)
      = [1, 1, 0, 0, 0, 0, 0, 0,
         7, 0, 0, 0, 0, 0, 0, 0,
         42, 0, 0, 0, 0, 0, 0, 0]
    ∧ containsSeg (strBytes "x=7 y=42")
        (shimOutputXY (strBytes "app") (strBytes "main") 3 0
          (args2PayloadPrim (intoArgU32 7) (intoArgU64 42))) :=
  ⟨by decide, ⟨strBytes "app::main#3 0] ", [], by decide⟩⟩

/-- Claim C5: encode-then-decode is the identity on primitive arguments. For
any two primitive carriers in range, decoding the Args2 payload at tag1 from
offset 8 returns the first value and offset 16, and decoding at tag2 from
offset 16 returns the second value and offset 24 — including the
two's-complement round trip for i64 and the u64 bit pattern for f64; the u32
widening into_arg is the zero-extension into the u64 carrier. -/
theorem claim5_roundtrip (a1 a2 : PrimArg) (v32 : Nat) (h1 : a1.wf) (h2 : a2.wf) :
    decodeArg a1.tag (args2PayloadPrim a1 a2) 8 = (a1.decVal, 16)
    ∧ decodeArg a2.tag (args2PayloadPrim a1 a2) 16 = (a2.decVal, 24)
    ∧ intoArgU32 v32 = PrimArg.argU64 v32 := by
  have hdrop8 : ∀ b1 b2 : PrimArg,
      (args2PayloadPrim b1 b2).drop 8 = b1.bytes ++ b2.bytes := by
    intro b1 b2
    simp [args2PayloadPrim]
  have hlen8 : ∀ b : PrimArg, b.bytes.length = 8 := by
    intro b
    cases b <;> simp [PrimArg.bytes, le64]
  have hdrop16 : ∀ b1 b2 : PrimArg,
      (args2PayloadPrim b1 b2).drop 16 = b2.bytes := by
    intro b1 b2
    have : (16 : Nat) = 8 + 8 := rfl
    rw [this, ← List.drop_drop, hdrop8]
    rw [← hlen8 b1, List.drop_left]
  refine ⟨?_, ?_, rfl⟩
  · cases a1 with
    | argF64 b =>
      simp only [PrimArg.wf] at h1
      simp only [PrimArg.tag, decodeArg, hdrop8, PrimArg.bytes, PrimArg.decVal]
      rw [leRead8_le64 b h1]
    | argU64 v =>
      simp only [PrimArg.wf] at h1
      simp only [PrimArg.tag, decodeArg, hdrop8, PrimArg.bytes, PrimArg.decVal]
      rw [leRead8_le64 v h1]
    | argI64 v =>
      simp only [PrimArg.wf] at h1
      simp only [PrimArg.tag, decodeArg, hdrop8, PrimArg.bytes, PrimArg.decVal]
      rw [leRead8_le64 (encodeI64 v) (encodeI64_lt v)]
      rw [decodeI64_encodeI64 v h1.1 h1.2]
  · cases a2 with
    | argF64 b =>
      simp only [PrimArg.wf] at h2
      simp only [PrimArg.tag, decodeArg, hdrop16, PrimArg.bytes, PrimArg.decVal]
      rw [leRead8_le64_nil b h2]
    | argU64 v =>
      simp only [PrimArg.wf] at h2
      simp only [PrimArg.tag, decodeArg, hdrop16, PrimArg.bytes, PrimArg.decVal]
      rw [leRead8_le64_nil v h2]
    | argI64 v =>
      simp only [PrimArg.wf] at h2
      simp only [PrimArg.tag, decodeArg, hdrop16, PrimArg.bytes, PrimArg.decVal]
      rw [leRead8_le64_nil (encodeI64 v) (encodeI64_lt v)]
      rw [decodeI64_encodeI64 v h2.1 h2.2]

/-- Witness for C5 at a1 = ArgI64(−5), a2 = ArgU64(9). -/
theorem claim5_roundtrip_witness :
    ((PrimArg.argI64 (-5)).wf ∧ (PrimArg.argU64 9).wf)
    ∧ (decodeArg (PrimArg.argI64 (-5)).tag
         (args2PayloadPrim (.argI64 (-5)) (.argU64 9)) 8
         = ((PrimArg.argI64 (-5)).decVal, 16)
       ∧ decodeArg (PrimArg.argU64 9).tag
           (args2PayloadPrim (.argI64 (-5)) (.argU64 9)) 16
           = ((PrimArg.argU64 9).decVal, 24)
       ∧ intoArgU32 7 = PrimArg.argU64 7) :=
  ⟨⟨(by decide : (-9223372036854775808 : Int) ≤ -5 ∧ (-5 : Int) < 9223372036854775808),
    (by decide : (9 : Nat) < 18446744073709551616)⟩,
   claim5_roundtrip (.argI64 (-5)) (.argU64 9) 7
     (by decide : (-9223372036854775808 : Int) ≤ -5 ∧ (-5 : Int) < 9223372036854775808)
     (by decide : (9 : Nat) < 18446744073709551616)⟩

/-- Every pod tag falls into the default decoder arm and advances the offset
by the tag value (src/args2.rs:172-181). -/
theorem decodeArg_pod_arm (t : Nat) (bytes : List Nat) (off : Nat) :
    decodeArg (t + 3) bytes off
      = (.pod (leRead8 (bytes.drop off)) ((bytes.drop (off + 8)).take (t + 3 - 8)),
         off + (t + 3)) := rfl

/-- Claim C6 counterexample: for a POD of size 4 (alignment 4) the decoder
reads the second argument at offset 20, which is neither 8-aligned nor the
encoder's offset 24; decoding the second u64 argument of value 42 at the
decoder's offset yields 42·2^32 instead of 42. -/
theorem claim6_counterexample :
    ¬ (decSecondOff 4 % 8 = 0 ∧ decSecondOff 4 = encSecondOff 4 4)
    ∧ (decodeArg (podTag 4)
         ([podTag 4, 1, 0, 0, 0, 0, 0, 0] ++ le64 57005 ++ [1, 2, 3, 4]
           ++ [0, 0, 0, 0] ++ le64 42) 8).2 = decSecondOff 4
    ∧ (decodeArg 1
         ([podTag 4, 1, 0, 0, 0, 0, 0, 0] ++ le64 57005 ++ [1, 2, 3, 4]
           ++ [0, 0, 0, 0] ++ le64 42) (decSecondOff 4)).1 ≠ DecVal.u64 42 := by
  decide

/-- Claim C6 (amended): when size_of T is a multiple of 8 (and at most 240 so
the u8 tag does not wrap) and align(T) divides 8, the decoder offset for the
second argument is 8-aligned and equals the encoder's offset 8 +
size_of(UserPodSnap T); the decoder advances by the tag value. For sizes not
a multiple of 8 the two offsets differ (see the counterexample). -/
theorem claim6_amended (szT alignT : Nat) (bytes : List Nat)
    (h8 : szT % 8 = 0) (hsz : szT ≤ 240) (hal : alignT ∣ 8) (halpos : 0 < alignT) :
    decSecondOff szT % 8 = 0
    ∧ decSecondOff szT = encSecondOff szT alignT
    ∧ (decodeArg (podTag szT) bytes 8).2 = decSecondOff szT := by
  have htag : podTag szT = szT + 8 := by
    unfold podTag
    omega
  have halle : alignT ≤ 8 := Nat.le_of_dvd (by omega) hal
  have hmax : max 8 alignT = 8 := by omega
  refine ⟨by unfold decSecondOff; omega, ?_, ?_⟩
  · unfold decSecondOff encSecondOff podSnapSize roundUp
    rw [hmax, htag]
    omega
  · rw [htag]
    have h5 : szT + 8 = (szT + 5) + 3 := by omega
    rw [h5, decodeArg_pod_arm]
    unfold decSecondOff
    rw [htag]

/-- Witness for the amended C6 at size 16, alignment 8. -/
theorem claim6_amended_witness :
    ((16 : Nat) % 8 = 0 ∧ (16 : Nat) ≤ 240 ∧ (8 : Nat) ∣ 8 ∧ (0 : Nat) < 8)
    ∧ (decSecondOff 16 % 8 = 0
       ∧ decSecondOff 16 = encSecondOff 16 8
       ∧ (decodeArg (podTag 16) [] 8).2 = decSecondOff 16) :=
  ⟨⟨by decide, by decide, by decide, by decide⟩,
   claim6_amended 16 8 [] (by decide) (by decide) (by decide) (by decide)⟩

/-! Buffer and lookup-table lemmas for the sink claims. -/

theorem writeBytesAt_length (l src : List Nat) (off : Nat)
    (h : off + src.length ≤ l.length) :
    (writeBytesAt l off src).length = l.length := by
  simp only [writeBytesAt, List.length_append, List.length_take, List.length_drop]
  omega

theorem take_writeBytesAt (l src : List Nat) (off : Nat)
    (h : off + src.length ≤ l.length) :
    (writeBytesAt l off src).take (off + src.length) = l.take off ++ src := by
  unfold writeBytesAt
  rw [List.take_append_eq_append_take]
  have h1 : (l.take off ++ src).length = off + src.length := by
    simp only [List.length_append, List.length_take]
    omega
  rw [List.take_of_length_le (le_of_eq h1), h1]
  have h2 : off + src.length - (off + src.length) = 0 := by omega
  rw [h2, List.take_zero, List.append_nil]

theorem take_head_writeBytesAt (l src : List Nat) (off : Nat)
    (h : off + src.length ≤ l.length) :
    (writeBytesAt l off src).take off = l.take off := by
  unfold writeBytesAt
  rw [List.take_append_eq_append_take, List.take_append_eq_append_take]
  have h1 : (l.take off).length = off := by
    rw [List.length_take]
    omega
  have h2 : (l.take off ++ src).length = off + src.length := by
    simp only [List.length_append, List.length_take]
    omega
  rw [List.take_of_length_le (le_of_eq h1), h1, h2]
  have h3 : off - off = 0 := by omega
  have h4 : off - (off + src.length) = 0 := by omega
  rw [h3, h4, List.take_zero, List.take_zero, List.append_nil, List.append_nil]

theorem set_eq_writeBytesAt (l : List Nat) (i v : Nat) (h : i < l.length) :
    l.set i v = writeBytesAt l i [v] := by
  induction l generalizing i with
  | nil => simp at h
  | cons a t ih =>
    cases i with
    | zero => simp [writeBytesAt]
    | succ n =>
      simp only [List.set_cons_succ]
      rw [ih n (by simpa using h)]
      simp [writeBytesAt]

theorem MyBytesMut.result_clear (m : MyBytesMut) : m.clear.result = [] := by
  simp [MyBytesMut.clear, MyBytesMut.result]

theorem MyBytesMut.result_push (m : MyBytesMut) (b : Nat)
    (h : m.pos < m.inner.length) :
    (m.push b).result = m.result ++ [b]
    ∧ (m.push b).pos = m.pos + 1
    ∧ (m.push b).inner.length = m.inner.length := by
  unfold MyBytesMut.push MyBytesMut.result
  rw [set_eq_writeBytesAt m.inner m.pos b h]
  have h1 : m.pos + [b].length ≤ m.inner.length := by simp; omega
  refine ⟨?_, rfl, writeBytesAt_length _ _ _ h1⟩
  have := take_writeBytesAt m.inner [b] m.pos h1
  simpa using this

theorem MyBytesMut.result_writeUnfilled (m : MyBytesMut) (src : List Nat)
    (h : m.pos + src.length ≤ m.inner.length) :
    (m.writeUnfilled src).result = m.result ++ src
    ∧ (m.writeUnfilled src).pos = m.pos + src.length
    ∧ (m.writeUnfilled src).inner.length = m.inner.length := by
  unfold MyBytesMut.writeUnfilled MyBytesMut.result
  exact ⟨take_writeBytesAt m.inner src m.pos h, rfl, writeBytesAt_length _ _ _ h⟩

theorem MyBytesMut.extendFromSlice_some (m : MyBytesMut) (src : List Nat)
    (h : m.pos + src.length < m.inner.length) :
    m.extendFromSlice src = some (m.writeUnfilled src) := by
  simp [MyBytesMut.extendFromSlice, MyBytesMut.writeUnfilled, h]

theorem MyBytesMut.extendFromSlice_none_iff (m : MyBytesMut) (src : List Nat) :
    m.extendFromSlice src = none ↔ m.inner.length ≤ m.pos + src.length := by
  unfold MyBytesMut.extendFromSlice
  split <;> rename_i hc
  · simp
    omega
  · simp
    omega

theorem MyBytesMut.safeExtendFromSlice_result (m : MyBytesMut) (src : List Nat)
    (hp : m.pos ≤ m.inner.length) :
    (m.safeExtendFromSlice src).result = m.result ++ src
    ∧ (m.safeExtendFromSlice src).pos = m.pos + src.length := by
  unfold MyBytesMut.safeExtendFromSlice MyBytesMut.result
  refine ⟨?_, rfl⟩
  split <;> rename_i hc
  · have hlen : m.pos + src.length
        ≤ (m.inner ++ List.replicate (m.pos + src.length - m.inner.length) 0).length := by
      simp
      omega
    rw [take_writeBytesAt _ _ _ hlen]
    rw [List.take_append_eq_append_take]
    have h2 : m.pos - m.inner.length = 0 := by omega
    rw [h2, List.take_zero, List.append_nil]
  · rw [take_writeBytesAt _ _ _ (by omega)]

/-! Claim theorems for the scratch buffer. -/

/-- Claim C9 counterexample: a write of 5 bytes into a 4-byte scratch buffer
fails the assertion in extend_from_slice (modelled as none, i.e. a panic that
aborts the consumer): it neither grows the buffer nor truncates the line. -/
theorem claim9_counterexample :
    (MyBytesMut.withCapacity 4).extendFromSlice [1, 2, 3, 4, 5] = none
    ∧ (MyBytesMut.withCapacity 4).extendFromSlice [1, 2, 3, 4] = none := by
  decide

/-- Claim C9 (amended): an oversized extend_from_slice neither grows nor
truncates — it fails its assertion (a panic, aborting the consumer) exactly
when inner.len() ≤ pos + src.len(); an in-bounds extend appends the bytes.
Growth-to-fit exists only in safe_extend_from_slice, which always succeeds
and appends, and no "…<truncated>" marker exists anywhere. -/
theorem claim9_amended (m : MyBytesMut) (src : List Nat) (m2 : MyBytesMut)
    (hp : m.pos ≤ m.inner.length) :
    (m.extendFromSlice src = none ↔ m.inner.length ≤ m.pos + src.length)
    ∧ (m.extendFromSlice src = some m2 → m2.result = m.result ++ src)
    ∧ (m.safeExtendFromSlice src).result = m.result ++ src := by
  refine ⟨m.extendFromSlice_none_iff src, ?_, (m.safeExtendFromSlice_result src hp).1⟩
  intro h
  have hc : m.pos + src.length < m.inner.length := by
    by_contra hcon
    rw [(m.extendFromSlice_none_iff src).mpr (by omega)] at h
    exact Option.noConfusion h
  rw [m.extendFromSlice_some src hc] at h
  have h2 := (m.result_writeUnfilled src (by omega)).1
  simp only [Option.some.injEq] at h
  rw [h] at h2
  exact h2

/-- Witness for the amended C9: capacity 8, position 0, a 3-byte write. -/
theorem claim9_amended_witness :
    ((MyBytesMut.withCapacity 8).pos ≤ (MyBytesMut.withCapacity 8).inner.length)
    ∧ (((MyBytesMut.withCapacity 8).extendFromSlice [5, 6, 7] = none
          ↔ (MyBytesMut.withCapacity 8).inner.length
              ≤ (MyBytesMut.withCapacity 8).pos + ([5, 6, 7] : List Nat).length)
       ∧ ((MyBytesMut.withCapacity 8).extendFromSlice [5, 6, 7]
            = some ⟨[5, 6, 7, 0, 0, 0, 0, 0], 3⟩ →
          (⟨[5, 6, 7, 0, 0, 0, 0, 0], 3⟩ : MyBytesMut).result
            = (MyBytesMut.withCapacity 8).result ++ [5, 6, 7])
       ∧ ((MyBytesMut.withCapacity 8).safeExtendFromSlice [5, 6, 7]).result
            = (MyBytesMut.withCapacity 8).result ++ [5, 6, 7]) :=
  ⟨by decide,
   claim9_amended (MyBytesMut.withCapacity 8) [5, 6, 7] ⟨[5, 6, 7, 0, 0, 0, 0, 0], 3⟩
     (by decide)⟩

/-! Lookup-table slice lemmas. -/

theorem flatMap_chunk_slice (f : Nat → List Nat) (c : Nat) :
    ∀ (n start len : Nat), n < len →
      (∀ i, i < len → (f (start + i)).length = c) →
      (((List.range' start len).flatMap f).drop (c * n)).take c = f (start + n) := by
  intro n
  induction n with
  | zero =>
    intro start len hlt hf
    cases len with
    | zero => omega
    | succ L =>
      rw [List.range'_succ, List.flatMap_cons]
      have hc : (f start).length = c := by
        have := hf 0 (by omega)
        simpa using this
      rw [Nat.mul_zero, List.drop_zero, List.take_append_eq_append_take]
      rw [List.take_of_length_le (le_of_eq hc), hc]
      have h2 : c - c = 0 := by omega
      rw [h2, List.take_zero, List.append_nil, Nat.add_zero]
  | succ n ih =>
    intro start len hlt hf
    cases len with
    | zero => omega
    | succ L =>
      rw [List.range'_succ, List.flatMap_cons]
      have hc : (f start).length = c := by
        have := hf 0 (by omega)
        simpa using this
      have hmul : c * (n + 1) = (f start).length + c * n := by
        rw [hc]
        ring
      rw [hmul, List.drop_append_eq_append_drop]
      rw [List.drop_of_length_le (by omega)]
      have h2 : (f start).length + c * n - (f start).length = c * n := by omega
      rw [h2, List.nil_append]
      have h3 : start + (n + 1) = (start + 1) + n := by omega
      rw [h3]
      exact ih (start + 1) L (by omega) fun i hi => by
        have := hf (i + 1) (by omega)
        rw [show start + 1 + i = start + (i + 1) by omega]
        exact this

theorem lut2slice_eq : ∀ n, n < 100 → lut2slice n = digitPair n := by decide

theorem lut4_slice (n : Nat) (h : n < 1000) :
    (DEC_4DIGITS_LUT.drop (4 * n)).take 4
      = [46, 48 + n / 100 % 10, 48 + n / 10 % 10, 48 + n % 10] := by
  unfold DEC_4DIGITS_LUT
  rw [List.range_eq_range']
  have := flatMap_chunk_slice
    (fun i => [46, 48 + i / 100 % 10, 48 + i / 10 % 10, 48 + i % 10]) 4
    n 0 1000 h (fun i _ => rfl)
  simpa using this

theorem lutMsus_eq (ms us : Nat) (h1 : ms < 1000) (h2 : us < 1000) :
    lutMsus ms us
      = [46, 48 + ms / 100 % 10, 48 + ms / 10 % 10, 48 + ms % 10,
         46, 48 + us / 100 % 10, 48 + us / 10 % 10, 48 + us % 10] := by
  unfold lutMsus
  rw [lut4_slice ms h1, lut4_slice us h2]
  rfl

theorem tidWrite_eq (tid : Nat) (h : tid < 32) :
    tidWrite tid = [84, 61] ++ digitPair tid := by
  unfold tidWrite tidLut
  rw [List.range_eq_range']
  have hf : ∀ i, i < 32 → (((fun t => [84, 61] ++ lut2slice t) (0 + i)).length = 4) := by
    intro i hi
    simp only [List.length_append]
    rw [lut2slice_eq (0 + i) (by omega)]
    rfl
  have := flatMap_chunk_slice (fun t => [84, 61] ++ lut2slice t) 4 tid 0 32 h hf
  rw [Nat.zero_add] at this
  rw [this]
  simp only [lut2slice_eq tid (by omega)]

/-- The fresh path of refresh_dt: when the cached second differs and the
cache buffer has the separator shape left by `TimeCache::new`, the 14 bytes
written out are exactly "MM-DD HH:MM:SS" for the split_utc fields. -/
theorem refreshDt_fresh (x0 x1 x3 x4 x6 x7 x9 x10 x12 x13 : Nat) (rest : List Nat)
    (sec0 currSec : Int)
    (hne : currSec ≠ sec0)
    (hmo : (splitUtc currSec).1.toNat < 100)
    (hda : (splitUtc currSec).2.1.toNat < 100)
    (hhh : (splitUtc currSec).2.2.1.toNat < 100)
    (hmi : (splitUtc currSec).2.2.2.1.toNat < 100)
    (hss : (splitUtc currSec).2.2.2.2.toNat < 100) :
    (TimeCache.refreshDt
        ⟨sec0, x0 :: x1 :: 45 :: x3 :: x4 :: 32 :: x6 :: x7 :: 58 :: x9 :: x10
          :: 58 :: x12 :: x13 :: rest⟩ currSec).2
      = dtRender (splitUtc currSec).1.toNat (splitUtc currSec).2.1.toNat
          (splitUtc currSec).2.2.1.toNat (splitUtc currSec).2.2.2.1.toNat
          (splitUtc currSec).2.2.2.2.toNat
    ∧ (TimeCache.refreshDt
        ⟨sec0, x0 :: x1 :: 45 :: x3 :: x4 :: 32 :: x6 :: x7 :: 58 :: x9 :: x10
          :: 58 :: x12 :: x13 :: rest⟩ currSec).1.sec = currSec := by
  unfold TimeCache.refreshDt
  rw [if_neg hne]
  simp only []
  rw [lut2slice_eq _ hmo, lut2slice_eq _ hda, lut2slice_eq _ hhh,
      lut2slice_eq _ hmi, lut2slice_eq _ hss]
  simp only [digitPair, dtRender, writeBytesAt, List.length_cons, List.length_nil,
    List.take_succ_cons, List.take_zero, List.drop_succ_cons, List.drop_zero,
    List.cons_append, List.nil_append]
  constructor
  · first
    | rfl
    | trivial
  · first
    | rfl
    | trivial

/-- The scratch-buffer pipeline of on_record: '[', date-time, ms/us, ' ',
tid, ' ', level, decoder output, '\n'. Both extend_from_slice calls succeed
and the scratch holds the concatenated line. -/
theorem scratch_chain (m : MyBytesMut) (dt msus tid4 lvl shim : List Nat)
    (hdt : dt.length = 14) (hmsus : msus.length = 8) (htid4 : tid4.length = 4)
    (hcap : 29 + lvl.length + shim.length < m.inner.length) :
    ((((((m.clear.push 91).writeUnfilled dt).writeUnfilled msus).push 32).writeUnfilled
        tid4).push 32).extendFromSlice lvl
      = some (((((((m.clear.push 91).writeUnfilled dt).writeUnfilled msus).push
          32).writeUnfilled tid4).push 32).writeUnfilled lvl)
    ∧ (((((((m.clear.push 91).writeUnfilled dt).writeUnfilled msus).push
          32).writeUnfilled tid4).push 32).writeUnfilled lvl).extendFromSlice shim
      = some ((((((((m.clear.push 91).writeUnfilled dt).writeUnfilled msus).push
          32).writeUnfilled tid4).push 32).writeUnfilled lvl).writeUnfilled shim)
    ∧ (((((((((m.clear.push 91).writeUnfilled dt).writeUnfilled msus).push
          32).writeUnfilled tid4).push 32).writeUnfilled lvl).writeUnfilled
          shim).push 10).result
      = [91] ++ dt ++ msus ++ [32] ++ tid4 ++ [32] ++ lvl ++ shim ++ [10] := by
  have hL : 29 ≤ m.inner.length := by omega
  have hc0 : m.clear.pos = 0 := rfl
  have hc1 : m.clear.inner = m.inner := rfl
  have hc2 : m.clear.result = [] := m.result_clear
  obtain ⟨e1, p1, l1⟩ := m.clear.result_push 91 (by rw [hc0, hc1]; omega)
  rw [hc2] at e1
  rw [hc0] at p1
  rw [hc1] at l1
  obtain ⟨e2, p2, l2⟩ := (m.clear.push 91).result_writeUnfilled dt
    (by rw [p1, l1, hdt]; omega)
  rw [e1] at e2
  rw [p1, hdt] at p2
  obtain ⟨e3, p3, l3⟩ := ((m.clear.push 91).writeUnfilled dt).result_writeUnfilled msus
    (by rw [p2, l2, l1, hmsus]; omega)
  rw [e2] at e3
  rw [p2, hmsus] at p3
  rw [l2] at l3
  obtain ⟨e4, p4, l4⟩ := (((m.clear.push 91).writeUnfilled dt).writeUnfilled
      msus).result_push 32 (by rw [p3, l3, l1]; omega)
  rw [e3] at e4
  rw [p3] at p4
  rw [l3, l1] at l4
  obtain ⟨e5, p5, l5⟩ := ((((m.clear.push 91).writeUnfilled dt).writeUnfilled
      msus).push 32).result_writeUnfilled tid4 (by rw [p4, l4, htid4]; omega)
  rw [e4] at e5
  rw [p4, htid4] at p5
  rw [l4] at l5
  obtain ⟨e6, p6, l6⟩ := (((((m.clear.push 91).writeUnfilled dt).writeUnfilled
      msus).push 32).writeUnfilled tid4).result_push 32 (by rw [p5, l5]; omega)
  rw [e5] at e6
  rw [p5] at p6
  rw [l5] at l6
  have hE1 := MyBytesMut.extendFromSlice_some _ lvl (by rw [p6, l6]; omega)
  obtain ⟨e7, p7, l7⟩ := ((((((m.clear.push 91).writeUnfilled dt).writeUnfilled
      msus).push 32).writeUnfilled tid4).push 32).result_writeUnfilled lvl
      (by rw [p6, l6]; omega)
  rw [e6] at e7
  rw [p6] at p7
  rw [l6] at l7
  have hE2 := MyBytesMut.extendFromSlice_some _ shim (by rw [p7, l7]; omega)
  obtain ⟨e8, p8, l8⟩ := (((((((m.clear.push 91).writeUnfilled dt).writeUnfilled
      msus).push 32).writeUnfilled tid4).push 32).writeUnfilled
      lvl).result_writeUnfilled shim (by rw [p7, l7]; omega)
  rw [e7] at e8
  rw [p7] at p8
  rw [l7] at l8
  obtain ⟨e9, _, _⟩ := ((((((((m.clear.push 91).writeUnfilled dt).writeUnfilled
      msus).push 32).writeUnfilled tid4).push 32).writeUnfilled
      lvl).writeUnfilled shim).result_push 10 (by rw [p8, l8]; omega)
  rw [e8] at e9
  refine ⟨hE1, hE2, ?_⟩
  rw [e9]
  simp [List.append_assoc]

/-- Claim C7 (amended): the rendered line is exactly '[' ++ "MM-DD HH:MM:SS"
++ ".mmm.uuu" ++ ' ' ++ "T=NN" ++ ' ' ++ level string ++ "module::file#line
tid] " ++ body ++ newline: the thread token is the four bytes "T=NN" (not
"TNN") and the site decoder writes the numeric tid between the line number
and "] ". Proved for any sink whose time cache holds the separator shape
left by TimeCache::new, a fresh second, in-range date/ms/us fields, tid < 32
and sufficient scratch capacity. -/
theorem claim7_amended (s : ConsoleBatchSink) (tid level : Nat) (currNs : Int)
    (modulePath fileBase body : List Nat) (line : Nat)
    (sec0 : Int) (x0 x1 x3 x4 x6 x7 x9 x10 x12 x13 : Nat) (rest : List Nat)
    (htc : s.timeCache = ⟨sec0, x0 :: x1 :: 45 :: x3 :: x4 :: 32 :: x6 :: x7 :: 58
        :: x9 :: x10 :: 58 :: x12 :: x13 :: rest⟩)
    (hfresh : currNs.tdiv 1000000000 ≠ sec0)
    (hmo : (splitUtc (currNs.tdiv 1000000000)).1.toNat < 100)
    (hda : (splitUtc (currNs.tdiv 1000000000)).2.1.toNat < 100)
    (hhh : (splitUtc (currNs.tdiv 1000000000)).2.2.1.toNat < 100)
    (hmi : (splitUtc (currNs.tdiv 1000000000)).2.2.2.1.toNat < 100)
    (hss : (splitUtc (currNs.tdiv 1000000000)).2.2.2.2.toNat < 100)
    (hms : (((currNs.tmod 1000000000).tdiv 1000).tdiv 1000).toNat < 1000)
    (hus : (((currNs.tmod 1000000000).tdiv 1000).tmod 1000).toNat < 1000)
    (htid : tid < 32)
    (hcap : 29 + (LEVEL_STRS.getD level []).length
        + (writeLocTid modulePath fileBase line tid ++ body).length
        < s.scratch.inner.length) :
    (s.appendRecord tid level currNs
        (writeLocTid modulePath fileBase line tid ++ body)).map
        (fun s2 => (s2.scratch.result, s2.batch))
      = some
          ([91]
            ++ dtRender (splitUtc (currNs.tdiv 1000000000)).1.toNat
                 (splitUtc (currNs.tdiv 1000000000)).2.1.toNat
                 (splitUtc (currNs.tdiv 1000000000)).2.2.1.toNat
                 (splitUtc (currNs.tdiv 1000000000)).2.2.2.1.toNat
                 (splitUtc (currNs.tdiv 1000000000)).2.2.2.2.toNat
            ++ [46, 48 + (((currNs.tmod 1000000000).tdiv 1000).tdiv 1000).toNat / 100 % 10,
                48 + (((currNs.tmod 1000000000).tdiv 1000).tdiv 1000).toNat / 10 % 10,
                48 + (((currNs.tmod 1000000000).tdiv 1000).tdiv 1000).toNat % 10,
                46, 48 + (((currNs.tmod 1000000000).tdiv 1000).tmod 1000).toNat / 100 % 10,
                48 + (((currNs.tmod 1000000000).tdiv 1000).tmod 1000).toNat / 10 % 10,
                48 + (((currNs.tmod 1000000000).tdiv 1000).tmod 1000).toNat % 10]
            ++ [32] ++ ([84, 61] ++ digitPair tid) ++ [32]
            ++ LEVEL_STRS.getD level []
            ++ (writeLocTid modulePath fileBase line tid ++ body) ++ [10],
           s.batch
             ++ ([91]
               ++ dtRender (splitUtc (currNs.tdiv 1000000000)).1.toNat
                    (splitUtc (currNs.tdiv 1000000000)).2.1.toNat
                    (splitUtc (currNs.tdiv 1000000000)).2.2.1.toNat
                    (splitUtc (currNs.tdiv 1000000000)).2.2.2.1.toNat
                    (splitUtc (currNs.tdiv 1000000000)).2.2.2.2.toNat
               ++ [46, 48 + (((currNs.tmod 1000000000).tdiv 1000).tdiv 1000).toNat / 100 % 10,
                   48 + (((currNs.tmod 1000000000).tdiv 1000).tdiv 1000).toNat / 10 % 10,
                   48 + (((currNs.tmod 1000000000).tdiv 1000).tdiv 1000).toNat % 10,
                   46, 48 + (((currNs.tmod 1000000000).tdiv 1000).tmod 1000).toNat / 100 % 10,
                   48 + (((currNs.tmod 1000000000).tdiv 1000).tmod 1000).toNat / 10 % 10,
                   48 + (((currNs.tmod 1000000000).tdiv 1000).tmod 1000).toNat % 10]
               ++ [32] ++ ([84, 61] ++ digitPair tid) ++ [32]
               ++ LEVEL_STRS.getD level []
               ++ (writeLocTid modulePath fileBase line tid ++ body) ++ [10])) := by
  have hdt14 : (dtRender (splitUtc (currNs.tdiv 1000000000)).1.toNat
      (splitUtc (currNs.tdiv 1000000000)).2.1.toNat
      (splitUtc (currNs.tdiv 1000000000)).2.2.1.toNat
      (splitUtc (currNs.tdiv 1000000000)).2.2.2.1.toNat
      (splitUtc (currNs.tdiv 1000000000)).2.2.2.2.toNat).length = 14 := by
    simp [dtRender, digitPair]
  have hrd := refreshDt_fresh x0 x1 x3 x4 x6 x7 x9 x10 x12 x13 rest sec0
    (currNs.tdiv 1000000000) hfresh hmo hda hhh hmi hss
  unfold ConsoleBatchSink.appendRecord
  simp only []
  rw [htc]
  rw [hrd.1]
  rw [lutMsus_eq _ _ hms hus, tidWrite_eq tid htid]
  obtain ⟨hE1, hE2, hRes⟩ := scratch_chain s.scratch
    (dtRender (splitUtc (currNs.tdiv 1000000000)).1.toNat
      (splitUtc (currNs.tdiv 1000000000)).2.1.toNat
      (splitUtc (currNs.tdiv 1000000000)).2.2.1.toNat
      (splitUtc (currNs.tdiv 1000000000)).2.2.2.1.toNat
      (splitUtc (currNs.tdiv 1000000000)).2.2.2.2.toNat)
    ([46, 48 + (((currNs.tmod 1000000000).tdiv 1000).tdiv 1000).toNat / 100 % 10,
      48 + (((currNs.tmod 1000000000).tdiv 1000).tdiv 1000).toNat / 10 % 10,
      48 + (((currNs.tmod 1000000000).tdiv 1000).tdiv 1000).toNat % 10,
      46, 48 + (((currNs.tmod 1000000000).tdiv 1000).tmod 1000).toNat / 100 % 10,
      48 + (((currNs.tmod 1000000000).tdiv 1000).tmod 1000).toNat / 10 % 10,
      48 + (((currNs.tmod 1000000000).tdiv 1000).tmod 1000).toNat % 10])
    ([84, 61] ++ digitPair tid)
    (LEVEL_STRS.getD level [])
    (writeLocTid modulePath fileBase line tid ++ body)
    hdt14 rfl (by simp [digitPair]) hcap
  rw [hE1]
  dsimp only
  rw [hE2]
  dsimp only [Option.map]
  rw [hRes]


/-- Claim C7 counterexample: on the fixture record (tid 0, info level,
ns = 0, module "m", file "f", line 1, body "b") the rendered line is
"[01-01 00:00:00.000.000 T=00 <info> m::f#1 0] b\n", which differs from the
claimed layout "[01-01 00:00:00.000.000 T00 <info> m::f#1] b\n": the thread
token is "T=NN", not "TNN", and the numeric tid precedes "] ". -/
theorem claim7_counterexample :
    ((fixtureSink.appendRecord 0 2 0 fixtureShim).map
        (fun s2 => s2.scratch.result)).isSome = true
    ∧ (fixtureSink.appendRecord 0 2 0 fixtureShim).map (fun s2 => s2.scratch.result)
        ≠ some (claimedC7Line (strBytes "01-01 00:00:00") 0 0 0 (LEVEL_STRS.getD 2 [])
            (strBytes "m") (strBytes "f") 1 (strBytes "b")) := by
  exact ⟨by decide, by decide⟩

/-- Witness for the amended C7 at the fixture record. -/
theorem claim7_amended_witness :
    (fixtureSink.timeCache
        = (⟨9223372036854775807, 48 :: 48 :: 45 :: 48 :: 48 :: 32 :: 48 :: 48 :: 58
            :: 48 :: 48 :: 58 :: 48 :: 48 :: List.replicate 18 0⟩ : TimeCache)
      ∧ (0 : Int).tdiv 1000000000 ≠ 9223372036854775807
      ∧ (splitUtc ((0 : Int).tdiv 1000000000)).1.toNat < 100
      ∧ (splitUtc ((0 : Int).tdiv 1000000000)).2.1.toNat < 100
      ∧ (splitUtc ((0 : Int).tdiv 1000000000)).2.2.1.toNat < 100
      ∧ (splitUtc ((0 : Int).tdiv 1000000000)).2.2.2.1.toNat < 100
      ∧ (splitUtc ((0 : Int).tdiv 1000000000)).2.2.2.2.toNat < 100
      ∧ ((((0 : Int).tmod 1000000000).tdiv 1000).tdiv 1000).toNat < 1000
      ∧ ((((0 : Int).tmod 1000000000).tdiv 1000).tmod 1000).toNat < 1000
      ∧ (0 : Nat) < 32
      ∧ 29 + (LEVEL_STRS.getD 2 []).length
          + (writeLocTid (strBytes "m") (strBytes "f") 1 0 ++ strBytes "b").length
          < fixtureSink.scratch.inner.length)
    ∧ (fixtureSink.appendRecord 0 2 0
          (writeLocTid (strBytes "m") (strBytes "f") 1 0 ++ strBytes "b")).map
          (fun s2 => (s2.scratch.result, s2.batch))
        = some
            ([91]
              ++ dtRender (splitUtc ((0 : Int).tdiv 1000000000)).1.toNat
                   (splitUtc ((0 : Int).tdiv 1000000000)).2.1.toNat
                   (splitUtc ((0 : Int).tdiv 1000000000)).2.2.1.toNat
                   (splitUtc ((0 : Int).tdiv 1000000000)).2.2.2.1.toNat
                   (splitUtc ((0 : Int).tdiv 1000000000)).2.2.2.2.toNat
              ++ [46, 48 + ((((0 : Int).tmod 1000000000).tdiv 1000).tdiv 1000).toNat / 100 % 10,
                  48 + ((((0 : Int).tmod 1000000000).tdiv 1000).tdiv 1000).toNat / 10 % 10,
                  48 + ((((0 : Int).tmod 1000000000).tdiv 1000).tdiv 1000).toNat % 10,
                  46, 48 + ((((0 : Int).tmod 1000000000).tdiv 1000).tmod 1000).toNat / 100 % 10,
                  48 + ((((0 : Int).tmod 1000000000).tdiv 1000).tmod 1000).toNat / 10 % 10,
                  48 + ((((0 : Int).tmod 1000000000).tdiv 1000).tmod 1000).toNat % 10]
              ++ [32] ++ ([84, 61] ++ digitPair 0) ++ [32]
              ++ LEVEL_STRS.getD 2 []
              ++ (writeLocTid (strBytes "m") (strBytes "f") 1 0 ++ strBytes "b") ++ [10],
             fixtureSink.batch
               ++ ([91]
                 ++ dtRender (splitUtc ((0 : Int).tdiv 1000000000)).1.toNat
                      (splitUtc ((0 : Int).tdiv 1000000000)).2.1.toNat
                      (splitUtc ((0 : Int).tdiv 1000000000)).2.2.1.toNat
                      (splitUtc ((0 : Int).tdiv 1000000000)).2.2.2.1.toNat
                      (splitUtc ((0 : Int).tdiv 1000000000)).2.2.2.2.toNat
                 ++ [46, 48 + ((((0 : Int).tmod 1000000000).tdiv 1000).tdiv 1000).toNat / 100 % 10,
                     48 + ((((0 : Int).tmod 1000000000).tdiv 1000).tdiv 1000).toNat / 10 % 10,
                     48 + ((((0 : Int).tmod 1000000000).tdiv 1000).tdiv 1000).toNat % 10,
                     46, 48 + ((((0 : Int).tmod 1000000000).tdiv 1000).tmod 1000).toNat / 100 % 10,
                     48 + ((((0 : Int).tmod 1000000000).tdiv 1000).tmod 1000).toNat / 10 % 10,
                     48 + ((((0 : Int).tmod 1000000000).tdiv 1000).tmod 1000).toNat % 10]
                 ++ [32] ++ ([84, 61] ++ digitPair 0) ++ [32]
                 ++ LEVEL_STRS.getD 2 []
                 ++ (writeLocTid (strBytes "m") (strBytes "f") 1 0 ++ strBytes "b") ++ [10])) :=
  ⟨⟨by decide, by decide, by decide, by decide, by decide, by decide, by decide,
    by decide, by decide, by decide, by decide⟩,
   claim7_amended fixtureSink 0 2 0 (strBytes "m") (strBytes "f") (strBytes "b") 1
     9223372036854775807 48 48 48 48 48 48 48 48 48 48 (List.replicate 18 0)
     (by decide) (by decide) (by decide) (by decide) (by decide) (by decide)
     (by decide) (by decide) (by decide) (by decide) (by decide)⟩

/-! Claim theorems for the batching policy. -/

theorem i64WrapSub_eq (a b : Int) (h1 : -9223372036854775808 ≤ a - b)
    (h2 : a - b < 9223372036854775808) : i64WrapSub a b = a - b := by
  unfold i64WrapSub toI64
  split <;> rename_i hc <;> omega

theorem flushNow_eq (s : ConsoleBatchSink) (reset : Int) :
    s.flushNow reset
      = ({ s with batch := [], lastFlushCycles := reset }, FLUSH_NOW_LINE ++ s.batch) := by
  unfold ConsoleBatchSink.flushNow
  split <;> rename_i hc
  · obtain ⟨b, sc, fb, fi, lf, tc⟩ := s
    simp only [List.isEmpty_iff] at hc
    simp only at hc ⊢
    subst hc
    simp
  · rfl

/-- Claim C8 counterexample: a flush produces output beyond the batch bytes —
the debug println "flush_now" precedes them. On a sink with batch [7] whose
age bound has elapsed, on_idle flushes (the batch is cleared) yet the bytes
written to stdout are not the batch bytes alone. -/
theorem claim8_counterexample :
    (({ batch := [7], scratch := ⟨[], 0⟩, flushBytes := 100,
         flushIntervalCycles := 10, lastFlushCycles := 0,
         timeCache := TimeCache.new } : ConsoleBatchSink).onIdle 100 5).1.batch = []
    ∧ (({ batch := [7], scratch := ⟨[], 0⟩, flushBytes := 100,
          flushIntervalCycles := 10, lastFlushCycles := 0,
          timeCache := TimeCache.new } : ConsoleBatchSink).onIdle 100 5).2
        ≠ [7] := by
  exact ⟨by decide, by decide⟩

/-- Claim C8 (amended): after each appended line the batch is flushed iff
batch.len() ≥ flush_bytes or tsc − last_flush_tsc ≥ flush_interval_cycles,
where tsc is the record's timestamp (used as "now"); on_idle flushes exactly
when the batch is non-empty and the age bound has elapsed (an empty-batch
idle call is a no-op); and a flush writes the debug line "flush_now\n"
followed by all batch bytes to stdout, clears the batch and resets
last_flush_tsc to a fresh read_tsc(). The differences to the claim: the
flush emits the debug line before the batch bytes, and the age comparison
uses the record's tsc rather than a separate now_tsc. Stated within the
i64 range of the cycle differences (no wrap). -/
theorem claim8_amended (s s2 : ConsoleBatchSink) (tid level : Nat)
    (tsc currNs reset now : Int) (shim : List Nat)
    (happ : s.appendRecord tid level currNs shim = some s2)
    (hw1a : -9223372036854775808 ≤ tsc - s2.lastFlushCycles)
    (hw1b : tsc - s2.lastFlushCycles < 9223372036854775808)
    (hw2a : -9223372036854775808 ≤ now - s.lastFlushCycles)
    (hw2b : now - s.lastFlushCycles < 9223372036854775808) :
    (s.onRecord tid level tsc currNs shim reset
        = if s2.flushBytes ≤ s2.batch.length
             ∨ s2.flushIntervalCycles ≤ tsc - s2.lastFlushCycles
          then some ({ s2 with batch := [], lastFlushCycles := reset },
                     FLUSH_NOW_LINE ++ s2.batch)
          else some (s2, []))
    ∧ (s.onIdle now reset
        = if s.batch ≠ [] ∧ s.flushIntervalCycles ≤ now - s.lastFlushCycles
          then ({ s with batch := [], lastFlushCycles := reset },
                FLUSH_NOW_LINE ++ s.batch)
          else (s, [])) := by
  constructor
  · unfold ConsoleBatchSink.onRecord
    rw [happ]
    dsimp only
    have hsf : (s2.shouldFlush tsc = true)
        ↔ (s2.flushBytes ≤ s2.batch.length
           ∨ s2.flushIntervalCycles ≤ tsc - s2.lastFlushCycles) := by
      unfold ConsoleBatchSink.shouldFlush
      rw [i64WrapSub_eq _ _ hw1a hw1b]
      simp
    by_cases hcond : s2.flushBytes ≤ s2.batch.length
        ∨ s2.flushIntervalCycles ≤ tsc - s2.lastFlushCycles
    · rw [if_pos (hsf.mpr hcond), if_pos hcond, flushNow_eq]
    · rw [if_neg (fun hh => hcond (hsf.mp hh)), if_neg hcond]
  · unfold ConsoleBatchSink.onIdle
    have hsf2 : ((!s.batch.isEmpty
          && decide (s.flushIntervalCycles ≤ i64WrapSub now s.lastFlushCycles)) = true)
        ↔ (s.batch ≠ [] ∧ s.flushIntervalCycles ≤ now - s.lastFlushCycles) := by
      rw [i64WrapSub_eq _ _ hw2a hw2b]
      simp
    by_cases hcond : s.batch ≠ [] ∧ s.flushIntervalCycles ≤ now - s.lastFlushCycles
    · rw [if_pos (hsf2.mpr hcond), if_pos hcond, flushNow_eq]
    · rw [if_neg (fun hh => hcond (hsf2.mp hh)), if_neg hcond]

/-- Witness for the amended C8 at the fixture record (no flush fires: the
54-byte batch is below flush_bytes and no interval has elapsed; the idle
call with the empty pre-append batch is a no-op). -/
theorem claim8_amended_witness :
    (fixtureSink.appendRecord 0 2 0 fixtureShim
        = some ((fixtureSink.appendRecord 0 2 0 fixtureShim).getD fixtureSink)
      ∧ -9223372036854775808
          ≤ 0 - ((fixtureSink.appendRecord 0 2 0 fixtureShim).getD fixtureSink).lastFlushCycles
      ∧ 0 - ((fixtureSink.appendRecord 0 2 0 fixtureShim).getD fixtureSink).lastFlushCycles
          < 9223372036854775808
      ∧ -9223372036854775808 ≤ 7 - fixtureSink.lastFlushCycles
      ∧ 7 - fixtureSink.lastFlushCycles < 9223372036854775808)
    ∧ ((fixtureSink.onRecord 0 2 0 0 fixtureShim 5
          = if ((fixtureSink.appendRecord 0 2 0 fixtureShim).getD fixtureSink).flushBytes
                ≤ ((fixtureSink.appendRecord 0 2 0 fixtureShim).getD fixtureSink).batch.length
              ∨ ((fixtureSink.appendRecord 0 2 0 fixtureShim).getD fixtureSink).flushIntervalCycles
                ≤ 0 - ((fixtureSink.appendRecord 0 2 0 fixtureShim).getD fixtureSink).lastFlushCycles
            then some ({ (fixtureSink.appendRecord 0 2 0 fixtureShim).getD fixtureSink with
                           batch := [], lastFlushCycles := 5 },
                       FLUSH_NOW_LINE
                         ++ ((fixtureSink.appendRecord 0 2 0 fixtureShim).getD fixtureSink).batch)
            else some ((fixtureSink.appendRecord 0 2 0 fixtureShim).getD fixtureSink, []))
       ∧ (fixtureSink.onIdle 7 5
          = if fixtureSink.batch ≠ []
               ∧ fixtureSink.flushIntervalCycles ≤ 7 - fixtureSink.lastFlushCycles
            then ({ fixtureSink with batch := [], lastFlushCycles := 5 },
                  FLUSH_NOW_LINE ++ fixtureSink.batch)
            else (fixtureSink, []))) :=
  ⟨⟨by decide, by decide, by decide, by decide, by decide⟩,
   claim8_amended fixtureSink
     ((fixtureSink.appendRecord 0 2 0 fixtureShim).getD fixtureSink) 0 2 0 0 5 7
     fixtureShim (by decide) (by decide) (by decide) (by decide) (by decide)⟩

end NanoLog
